import Mathlib

/-!
Verification of the artifact-derivation and cache-synchronization engine of the
portfolio2 media pipeline (scripts/process_media.py and scripts/tag_media.py).

The engine is embedded shallowly: durations are rationals, filesystem contents
are explicit lists, the external codec service and the zero-shot classifier are
oracles recording success/failure and producing ranked label lists, and each
external invocation is counted.  Python string operations used by the code
(str.replace, str.startswith) are embedded as executable functions on the
character data of a string.
-/

namespace Portfolio

/-! ## Python string primitives -/

/-- Fuel-driven worker for `pyReplace`: replaces every leftmost, non-overlapping
occurrence of `pat` by `rep`, scanning left to right, exactly like Python
`str.replace`.  The fuel is the length of the scanned list, which only shrinks. -/
def replaceFuel (pat rep : List Char) : Nat → List Char → List Char
  | 0, l => l
  | _ + 1, [] => []
  | n + 1, c :: cs =>
    if pat ≠ [] ∧ pat.isPrefixOf (c :: cs) then
      rep ++ replaceFuel pat rep n (List.drop (pat.length - 1) cs)
    else
      c :: replaceFuel pat rep n cs

/-- Embedding of Python `s.replace(pat, rep)`. -/
def pyReplace (s pat rep : String) : String :=
  ⟨replaceFuel pat.data rep.data s.data.length s.data⟩

/-- Embedding of Python `s.startswith(pat)`. -/
def pyStartsWith (s pat : String) : Bool :=
  pat.data.isPrefixOf s.data

/-- The suffix-marker stripping performed by `clean_thumbnails_and_gifs` on each
file stem: `file.stem.replace("_thumb", "").replace("_start", "").replace("_middle", "").replace("_end", "")`. -/
def stripSuffixMarkers (s : String) : String :=
  pyReplace (pyReplace (pyReplace (pyReplace s "_thumb" "") "_start" "") "_middle" "") "_end" ""

/-! ## Data model -/

/-- One row of `tags.csv`: `media_id`, `media_type`, and the ordered tag list. -/
structure TagEntry where
  media_id : String
  media_type : String
  tags : List String
deriving DecidableEq

/-- A source video: its path in `VIDEO_DIR` and its filename stem
(`Path(video_path).stem`), which is the identifier used for every artifact. -/
structure Video where
  path : String
  stem : String
deriving DecidableEq

/-- The derived-artifact store plus the persisted tag table.  Each list holds the
identifiers whose canonical artifact file currently exists:
`jpegs` for `THUMBS_DIR/preview/{id}_thumb.jpg`, `webms` for
`THUMBS_DIR/preview/{id}.webm`, `gifs` for `GIF_DIR/{id}.gif`;
`csvRows` is the contents of `tags.csv`. -/
structure Store where
  jpegs : List String
  webms : List String
  gifs : List String
  csvRows : List TagEntry
deriving DecidableEq

def emptyStore : Store := ⟨[], [], [], []⟩

/-- The run configuration collected by `prompt_user` (the fields the loop
consumes), plus whether the CLIP pipeline loaded (`tagger is not None`). -/
structure Config where
  generate_thumbs : Bool
  generate_gifs : Bool
  generate_tags : Bool
  num_tags : Nat
  taggerLoaded : Bool

/-- Oracle for the external collaborators: the ffprobe duration probe
(`none` models a probe failure), the success of each generator's codec calls,
and the classifier's ranked label list for the thumbnail of an identifier. -/
structure Oracle where
  probe : String → Option ℚ
  jpegOk : String → Bool
  webmOk : String → Bool
  gifOk : String → Bool
  classify : String → List String

/-- `get_video_duration`: returns the probed duration, or `0` on any probe
failure (`ffmpeg.Error` or unexpected exception). -/
def get_video_duration (o : Oracle) (path : String) : ℚ :=
  match o.probe path with
  | some d => d
  | none => 0

/-! ## Still-frame generator (`generate_jpeg`) -/

/-- The capture timestamp of `generate_jpeg`:
`timestamp = min(max(duration * 0.1, 0), duration)`. -/
def jpegTimestamp (duration : ℚ) : ℚ :=
  min (max (duration * (1 / 10)) 0) duration

/-! ## Clip-segment generator (`generate_webm`) -/

/-- The `clips` list built by `generate_webm`: nominal start times paired with
segment file names.  For `duration > 60` three segments (10s in, middle,
20s from the end); otherwise a single middle segment whose file name is already
the final `{video_id}.webm`. -/
def webmClips (video_id : String) (duration : ℚ) : List (ℚ × String) :=
  if duration > 60 then
    [(10, video_id ++ "_start.webm"),
     (duration * (1 / 2), video_id ++ "_middle.webm"),
     (duration - 20, video_id ++ "_end.webm")]
  else
    [(duration * (1 / 2), video_id ++ ".webm")]

/-- The per-segment clamp applied before each ffmpeg call:
`start_time = min(max(start_time, 0), duration - segment_length)`. -/
def clampedStart (duration segment_length start_time : ℚ) : ℚ :=
  min (max start_time 0) (duration - segment_length)

/-- The clamped start times of the segments `generate_webm` produces, in the
order they are generated and concatenated. -/
def webmStarts (video_id : String) (duration segment_length : ℚ) : List ℚ :=
  (webmClips video_id duration).map (fun c => clampedStart duration segment_length c.1)

/-- Oracle for one `generate_webm` invocation: success of the i-th segment's
ffmpeg call and of the concat (merge) call. -/
structure WebmOracle where
  segOk : Nat → Bool
  mergeOk : Bool

/-- The segment-generation loop of `generate_webm`: attempts each file in turn;
a failed call produces no file and aborts the loop (`return []` in the source).
Returns the files created so far and whether every segment succeeded. -/
def genSegments (o : WebmOracle) : List String → Nat → List String × Bool
  | [], _ => ([], true)
  | f :: rest, i =>
    if o.segOk i then
      let r := genSegments o rest (i + 1)
      (f :: r.1, r.2)
    else
      ([], false)

/-- Result of `generate_webm`: returned URL list, the files of this invocation
still on disk when it returns, and whether the merge step was attempted. -/
structure WebmResult where
  urls : List String
  files : List String
  mergeAttempted : Bool
deriving DecidableEq

/-- Embedding of `generate_webm`.  On any segment failure it returns `[]` before
the merge.  For `duration > 60` it concatenates the three segments; on merge
success the transient segments are unlinked and only `{video_id}.webm` remains;
on merge failure it returns `[]` leaving the segments in place (the cleanup is
only on the success path).  For `duration ≤ 60` the single segment is itself
the final output. -/
def generate_webm (o : WebmOracle) (video_id : String) (duration segment_length : ℚ) :
    WebmResult :=
  let clips := webmClips video_id duration
  let gen := genSegments o (clips.map Prod.snd) 0
  if gen.2 = true then
    if duration > 60 then
      if o.mergeOk then
        ⟨["/thumbnails/preview/" ++ video_id ++ ".webm"], [video_id ++ ".webm"], true⟩
      else
        ⟨[], gen.1, true⟩
    else
      ⟨["/thumbnails/preview/" ++ video_id ++ ".webm"], gen.1, false⟩
  else
    ⟨[], gen.1, false⟩

/-! ## Looping-GIF generator (`generate_gif`) -/

/-- Oracle for one `generate_gif` invocation. -/
structure GifOracle where
  segOk : Nat → Bool
  mergeOk : Bool

/-- Name of the i-th transient GIF segment file, `{video_id}_segment_{i}.gif`. -/
def gifSegName (video_id : String) (i : Nat) : String :=
  video_id ++ "_segment_" ++ toString i ++ ".gif"

/-- The five-iteration segment loop of `generate_gif`: each attempted ffmpeg
call counts as one external invocation; a failure aborts the loop
(`return ""`), leaving the files created so far on disk.
Returns (files created, calls made, all succeeded). -/
def genGifSegs (o : GifOracle) (video_id : String) : List Nat → List String × Nat × Bool
  | [] => ([], 0, true)
  | i :: rest =>
    if o.segOk i then
      let r := genGifSegs o video_id rest
      (gifSegName video_id i :: r.1, r.2.1 + 1, r.2.2)
    else
      ([], 1, false)

/-- Result of `generate_gif`: returned URL (`""` on failure), files of this
invocation still on disk at return, and number of external tool invocations. -/
structure GifResult where
  url : String
  files : List String
  calls : Nat
deriving DecidableEq

/-- Embedding of `generate_gif`.  Durations below 5 seconds are rejected before
any external call.  Otherwise five 1-second segments are generated at offsets
0..4; any segment failure returns `""` with the already-created segments left
on disk (the cleanup `finally` wraps only the merge step).  The merge is then
attempted; whether it succeeds or fails, the `finally` block removes the five
transient segments, so only `{video_id}.gif` (on success) or nothing (on merge
failure) remains. -/
def generate_gif (o : GifOracle) (video_id : String) (duration : ℚ) : GifResult :=
  if duration < 5 then
    ⟨"", [], 0⟩
  else
    let gen := genGifSegs o video_id [0, 1, 2, 3, 4]
    if gen.2.2 = true then
      if o.mergeOk then
        ⟨"/gifs/" ++ video_id ++ ".gif", [video_id ++ ".gif"], gen.2.1 + 1⟩
      else
        ⟨"", [], gen.2.1 + 1⟩
    else
      ⟨"", gen.1, gen.2.1⟩

/-! ## Tag index operations -/

/-- The gif-side comparison list built inside the per-video loop:
`[id.replace("gif_", "") for id in existing_tag_ids if id.startswith("gif_")]`. -/
def gifStrippedIds (existing : List String) : List String :=
  (existing.filter (fun i => pyStartsWith i "gif_")).map (fun i => pyReplace i "gif_" "")

/-- The guard of the GIF branch on the tag-id side:
`video_id not in [id.replace("gif_", "") for id in existing_tag_ids if id.startswith("gif_")]`. -/
def gifTagGuard (existing : List String) (video_id : String) : Bool :=
  ! decide (video_id ∈ gifStrippedIds existing)

/-- `clean_orphaned_tags` of `process_media.py`: keeps an entry iff its
`media_id` is a stem of a current video file or the `gif_`-prefixed stem of a
current video file (both sets are derived from `video_files`). -/
def clean_orphaned_tags (tags_data : List TagEntry) (video_files : List Video) : List TagEntry :=
  tags_data.filter (fun e =>
    e.media_id ∈ video_files.map Video.stem ∨
    e.media_id ∈ video_files.map (fun v => "gif_" ++ v.stem))

/-- Modelled from the spec: the live media-id set the specification prescribes
for tag pruning — "video identifiers ∪ namespaced GIF identifiers derived from
currently-existing GIF artifacts".  `existingGifArtifacts` is the list of
identifiers whose `{id}.gif` file currently exists. -/
def specLiveMediaIds (video_files : List Video) (existingGifArtifacts : List String) :
    List String :=
  video_files.map Video.stem ++ existingGifArtifacts.map (fun g => "gif_" ++ g)

/-- `clean_thumbnails_and_gifs`: removes from the preview directory every file
whose suffix-stripped stem is not a live video stem (jpeg file stems are
`{id}_thumb`, webm file stems are `{id}`), and every GIF whose stem is not a
live video stem. -/
def clean_thumbnails_and_gifs (video_files : List Video) (st : Store) : Store :=
  let video_ids := video_files.map Video.stem
  { st with
    jpegs := st.jpegs.filter (fun id => stripSuffixMarkers (id ++ "_thumb") ∈ video_ids)
    webms := st.webms.filter (fun id => stripSuffixMarkers id ∈ video_ids)
    gifs := st.gifs.filter (fun id => id ∈ video_ids) }

/-! ## The per-video loop of `process_media` -/

/-- Loop state: the artifact/tag store, the in-memory `tags_data` list and
`existing_tag_ids` set, the invocation counters (each generator invocation
performs at least one codec call; each `tagger` use is one classifier call),
and the success counter. -/
structure PipeState where
  store : Store
  tagsData : List TagEntry
  existing : List String
  codecCalls : Nat
  classifierCalls : Nat
  successCount : Nat
deriving DecidableEq

def bumpCodec (s : PipeState) : PipeState :=
  { s with codecCalls := s.codecCalls + 1 }

def bumpClassifier (s : PipeState) : PipeState :=
  { s with classifierCalls := s.classifierCalls + 1 }

def addJpeg (s : PipeState) (id : String) : PipeState :=
  { s with store := { s.store with jpegs := id :: s.store.jpegs } }

def addWebm (s : PipeState) (id : String) : PipeState :=
  { s with store := { s.store with webms := id :: s.store.webms } }

def addGif (s : PipeState) (id : String) : PipeState :=
  { s with store := { s.store with gifs := id :: s.store.gifs } }

/-- `append_tags` + `tags_data.append` + `existing_tag_ids.add`: the entry is
appended to the persisted CSV and the in-memory list, and its id enters the
existing-id set. -/
def appendEntry (s : PipeState) (e : TagEntry) : PipeState :=
  { s with
    store := { s.store with csvRows := s.store.csvRows ++ [e] }
    tagsData := s.tagsData ++ [e]
    existing := s.existing.insert e.media_id }

def thumbUrl (id : String) : String :=
  "/thumbnails/preview/" ++ id ++ "_thumb.jpg"

/-- `tag_image`: opens the thumbnail (failing with `[]` and no classifier call
when the file does not exist), otherwise invokes the classifier once and keeps
the `num_tags` highest-scoring labels (`o.classify` is already rank-ordered). -/
def tag_image (o : Oracle) (num_tags : Nat) (id : String) (s : PipeState) :
    PipeState × List String :=
  if id ∈ s.store.jpegs then
    (bumpClassifier s, (o.classify id).take num_tags)
  else
    (s, [])

/-- The JPEG half of the thumbnail stage: reuse on existence
(`if not jpeg_path.exists()`), otherwise one `generate_jpeg` invocation;
`none` models the empty URL that triggers `continue`. -/
def tryJpeg (o : Oracle) (id : String) (s : PipeState) : PipeState × Option String :=
  if id ∈ s.store.jpegs then
    (s, some (thumbUrl id))
  else
    if o.jpegOk id then
      (addJpeg (bumpCodec s) id, some (thumbUrl id))
    else
      (bumpCodec s, none)

/-- The WebM half of the thumbnail stage: reuse on existence of
`{id}.webm`, otherwise one `generate_webm` invocation; `false` models the
empty URL list that triggers `continue`. -/
def tryWebm (o : Oracle) (id : String) (s : PipeState) : PipeState × Bool :=
  if id ∈ s.store.webms then
    (s, true)
  else
    if o.webmOk id then
      (addWebm (bumpCodec s) id, true)
    else
      (bumpCodec s, false)

/-- The thumbnail/WebM part of the loop body (`if generate_thumbs:`).  Returns
the updated state and `some jpeg_url` to proceed, or `none` for `continue`
(JPEG or WebM generation failed).  With `generate_thumbs` off, `jpeg_url`
stays `""`. -/
def thumbsStage (cfg : Config) (o : Oracle) (id : String) (s : PipeState) :
    PipeState × Option String :=
  if cfg.generate_thumbs then
    let r1 := tryJpeg o id s
    match r1.2 with
    | none => (r1.1, none)
    | some ju =>
      let r2 := tryWebm o id r1.1
      if r2.2 then (r2.1, some ju) else (r2.1, none)
  else
    (s, some "")

/-- The GIF part of the loop body:
`if generate_gifs and not gif_path.exists() and video_id not in [stripped ids]`.
On generation success the still-frame is tagged (when tagging is on and the
model loaded) and a `gif_`-prefixed entry is appended when tags were produced.
Returns `false` for `continue` (GIF generation failed). -/
def gifStage (cfg : Config) (o : Oracle) (id : String) (s : PipeState) :
    PipeState × Bool :=
  if cfg.generate_gifs = true ∧ id ∉ s.store.gifs ∧ gifTagGuard s.existing id = true then
    if o.gifOk id then
      let s2 := addGif (bumpCodec s) id
      if cfg.generate_tags = true ∧ cfg.taggerLoaded = true then
        let r := tag_image o cfg.num_tags id s2
        if r.2 = [] then
          (r.1, true)
        else
          (appendEntry r.1 ⟨"gif_" ++ id, "gif", r.2⟩, true)
      else
        (s2, true)
    else
      (bumpCodec s, false)
  else
    (s, true)

/-- The video-tagging part of the loop body:
`if generate_tags and video_id not in existing_tag_ids and jpeg_url:`; the
classifier is invoked only when the model loaded (`tagger` truthy), and an
entry is appended only when tags came back non-empty. -/
def videoTagStage (cfg : Config) (o : Oracle) (id : String) (jpeg_url : String)
    (s : PipeState) : PipeState :=
  if cfg.generate_tags = true ∧ id ∉ s.existing ∧ jpeg_url ≠ "" then
    if cfg.taggerLoaded then
      let s1 := bumpClassifier s
      let tags := (o.classify id).take cfg.num_tags
      if tags = [] then s1 else appendEntry s1 ⟨id, "video", tags⟩
    else
      s
  else
    s

/-- One iteration of the per-video loop of `process_media`: skip when the
probed duration is below 5 seconds; otherwise run the thumbnail/WebM stage,
the GIF stage and the video-tagging stage in order, with `continue` on a
generation failure, and count a success when the body completes. -/
def processVideo (cfg : Config) (o : Oracle) (s : PipeState) (v : Video) : PipeState :=
  if get_video_duration o v.path < 5 then
    s
  else
    let r1 := thumbsStage cfg o v.stem s
    match r1.2 with
    | none => r1.1
    | some ju =>
      let r2 := gifStage cfg o v.stem r1.1
      if r2.2 then
        let s3 := videoTagStage cfg o v.stem ju r2.1
        { s3 with successCount := s3.successCount + 1 }
      else
        r2.1

/-- A full `process_media` run without cache-clear: load the existing tag
table, run the orphan artifact cleanup (when thumbnails or GIFs are being
generated), fold the per-video loop over the inventory, and finally prune the
in-memory tag list against the video set (the persisted CSV is append-only and
is not rewritten by the prune). -/
def runPipeline (cfg : Config) (o : Oracle) (video_files : List Video) (st : Store) :
    PipeState :=
  let tagsData := st.csvRows
  let existing := tagsData.map TagEntry.media_id
  let st1 := if cfg.generate_thumbs || cfg.generate_gifs then
      clean_thumbnails_and_gifs video_files st
    else st
  let s0 : PipeState := ⟨st1, tagsData, existing, 0, 0, 0⟩
  let s1 := video_files.foldl (processVideo cfg o) s0
  if cfg.generate_tags then
    { s1 with tagsData := clean_orphaned_tags s1.tagsData video_files }
  else
    s1

/-- The loop state `runPipeline` starts from: loaded tag table, derived
existing-id set, optionally-cleaned artifact store, zeroed counters. -/
def runInit (cfg : Config) (video_files : List Video) (st : Store) : PipeState :=
  ⟨if cfg.generate_thumbs || cfg.generate_gifs then
      clean_thumbnails_and_gifs video_files st
    else st,
    st.csvRows, st.csvRows.map TagEntry.media_id, 0, 0, 0⟩

/-- The state after the per-video loop of `runPipeline` (before the tag
prune). -/
def runLoop (cfg : Config) (o : Oracle) (video_files : List Video) (st : Store) :
    PipeState :=
  video_files.foldl (processVideo cfg o) (runInit cfg video_files st)

/-! ## Cache clearing (`if clear_cache:` block of `process_media.py`) -/

/-- Per-operation success of the cache-clear sequence.  The two `shutil.rmtree`
calls are made with `ignore_errors=True`, so their failure raises nothing; every
other operation raises on failure and is caught by the surrounding
`except`, which returns from `process_media` early. -/
structure ClearOracle where
  copyThumbsOk : Bool
  copyGifsOk : Bool
  copyTagsOk : Bool
  rmThumbsOk : Bool
  rmGifsOk : Bool
  unlinkTagsOk : Bool
  mkThumbsOk : Bool
  mkGifsOk : Bool

/-- Filesystem state for the cache-clear sequence: the live preview directory,
GIF directory and tag table (`none` = absent), and the backup copies. -/
structure CacheFs where
  thumbsPreview : Option (List String)
  gifDir : Option (List String)
  tagsCsv : Option (List TagEntry)
  backupThumbs : Option (List String)
  backupGifs : Option (List String)
  backupTags : Option (List TagEntry)
deriving DecidableEq

/-- Sequencing of fallible cache-clear steps: once a step has raised
(`true`), every later step is skipped and the run returns early. -/
def abortSeq (r : Bool × CacheFs) (f : CacheFs → Bool × CacheFs) : Bool × CacheFs :=
  if r.1 then r else f r.2

/-- `shutil.copytree(preview_dir, backup_dir / "thumbnails")`, attempted only
when the preview directory exists; raises on failure. -/
def backupThumbsStep (o : ClearOracle) (fs : CacheFs) : Bool × CacheFs :=
  if fs.thumbsPreview.isSome ∧ o.copyThumbsOk = false then
    (true, fs)
  else
    (false, if fs.thumbsPreview.isSome then { fs with backupThumbs := fs.thumbsPreview } else fs)

/-- `shutil.copytree(gif_dir, backup_dir / "gifs")`. -/
def backupGifsStep (o : ClearOracle) (fs : CacheFs) : Bool × CacheFs :=
  if fs.gifDir.isSome ∧ o.copyGifsOk = false then
    (true, fs)
  else
    (false, if fs.gifDir.isSome then { fs with backupGifs := fs.gifDir } else fs)

/-- `shutil.copy(tags_csv_path, backup_dir / "tags.csv")`. -/
def backupTagsStep (o : ClearOracle) (fs : CacheFs) : Bool × CacheFs :=
  if fs.tagsCsv.isSome ∧ o.copyTagsOk = false then
    (true, fs)
  else
    (false, if fs.tagsCsv.isSome then { fs with backupTags := fs.tagsCsv } else fs)

/-- The backup half of the cache-clear block, in source order: thumbnails,
then GIFs, then the tag table. -/
def backupPhase (o : ClearOracle) (fs : CacheFs) : Bool × CacheFs :=
  abortSeq (backupThumbsStep o fs) (fun fs1 =>
    abortSeq (backupGifsStep o fs1) (backupTagsStep o))

/-- The deletion half of the cache-clear block: the two `shutil.rmtree` calls
use `ignore_errors=True` (a failure is swallowed and the directory keeps its
contents); the tag-table unlink and the two `mkdir(parents=True,
exist_ok=True)` calls raise on failure (`exist_ok`: an already-present
directory is kept as is). -/
def deletePhase (o : ClearOracle) (fs : CacheFs) : Bool × CacheFs :=
  let fs4 := if o.rmThumbsOk then { fs with thumbsPreview := none } else fs
  let fs5 := if o.rmGifsOk then { fs4 with gifDir := none } else fs4
  if fs5.tagsCsv.isSome ∧ o.unlinkTagsOk = false then
    (true, fs5)
  else
    let fs6 := if fs5.tagsCsv.isSome then { fs5 with tagsCsv := none } else fs5
    if o.mkThumbsOk = false then
      (true, fs6)
    else
      let fs7 := { fs6 with thumbsPreview := some (fs6.thumbsPreview.getD []) }
      if o.mkGifsOk = false then
        (true, fs7)
      else
        (false, { fs7 with gifDir := some (fs7.gifDir.getD []) })

/-- Embedding of the cache-clear block of `process_media.py`: all backups are
completed before any deletion begins; any raising operation sends control to
the `except` handler, which returns from `process_media` early.  The returned
Bool is `true` iff the run returned early. -/
def clearCache (o : ClearOracle) (fs : CacheFs) : Bool × CacheFs :=
  abortSeq (backupPhase o fs) (deletePhase o)

/-! ## Proof-support predicates and concrete scenarios -/

/-- Pointwise membership ordering between loop states: the per-video loop only
ever adds artifacts, tag rows and ids, never removes them. -/
def stateLE (s t : PipeState) : Prop :=
  (∀ x, x ∈ s.store.jpegs → x ∈ t.store.jpegs) ∧
  (∀ x, x ∈ s.store.webms → x ∈ t.store.webms) ∧
  (∀ x, x ∈ s.store.gifs → x ∈ t.store.gifs) ∧
  (∀ x, x ∈ s.existing → x ∈ t.existing) ∧
  (∀ x, x ∈ s.store.csvRows → x ∈ t.store.csvRows)

/-- The artifacts and tag entry of a video are settled relative to a store and
an id set: every generation branch of the loop body is short-circuited. -/
def CachedFor (cfg : Config) (st : Store) (ids : List String) (v : Video) : Prop :=
  (cfg.generate_thumbs = true → v.stem ∈ st.jpegs ∧ v.stem ∈ st.webms) ∧
  (cfg.generate_gifs = true → v.stem ∈ st.gifs ∨ v.stem ∈ gifStrippedIds ids) ∧
  (cfg.generate_tags = true → cfg.taggerLoaded = true → cfg.generate_thumbs = true →
    v.stem ∈ ids)

/-- A video is done with respect to a loop state: either it is below the
5-second floor, or all its artifacts and its tag entry are settled. -/
def DoneVideo (cfg : Config) (o : Oracle) (s : PipeState) (v : Video) : Prop :=
  5 ≤ get_video_duration o v.path → CachedFor cfg s.store s.existing v

/-- The unconditional half of the tag-table invariant: the existing-id set
matches the persisted rows and the in-memory list mirrors them (every append
updates all three together). -/
def TagSync (s : PipeState) : Prop :=
  (∀ x, x ∈ s.existing ↔ x ∈ s.store.csvRows.map TagEntry.media_id) ∧
  s.tagsData = s.store.csvRows

/-- Every artifact id in the store is the stem of a live video (holds for any
run started from the empty store). -/
def SubStems (video_files : List Video) (s : PipeState) : Prop :=
  (∀ x ∈ s.store.jpegs, x ∈ video_files.map Video.stem) ∧
  (∀ x ∈ s.store.webms, x ∈ video_files.map Video.stem) ∧
  (∀ x ∈ s.store.gifs, x ∈ video_files.map Video.stem)

/-- Agreement of two loop states on the tag-table fields (the artifact store
and counters may differ). -/
def tagFieldsEq (s t : PipeState) : Prop :=
  t.existing = s.existing ∧ t.store.csvRows = s.store.csvRows ∧ t.tagsData = s.tagsData

/-- The tag-table invariant of a run: the existing-id set matches the persisted
rows, the persisted media ids are duplicate-free, and the in-memory list
mirrors the persisted rows. -/
def TagInv (s : PipeState) : Prop :=
  (∀ x, x ∈ s.existing ↔ x ∈ s.store.csvRows.map TagEntry.media_id) ∧
  (s.store.csvRows.map TagEntry.media_id).Nodup ∧
  s.tagsData = s.store.csvRows

/-- The success-oracle assumption: every codec call of every generator
succeeds, the classifier always returns at least one label. -/
def SuccessOracle (o : Oracle) : Prop :=
  (∀ x, o.jpegOk x = true) ∧ (∀ x, o.webmOk x = true) ∧ (∀ x, o.gifOk x = true) ∧
  (∀ x, o.classify x ≠ [])

/-- Oracle for the concrete scenarios: every probe returns 30 seconds, every
generation succeeds, the classifier returns one label. -/
def demoOracle : Oracle :=
  ⟨fun _ => some 30, fun _ => true, fun _ => true, fun _ => true, fun _ => ["t"]⟩

/-- Scenario for claim C1: thumbnails on, a single video whose stem ends in the
reserved marker `_start`. -/
def cfgMarks : Config := ⟨true, false, false, 1, false⟩

def vidsMarks : List Video := [⟨"a_start.mp4", "a_start"⟩]

/-- Scenario for claim C8: thumbnails, GIFs and tagging on; the video stem
`gif_b` contains the namespace marker `gif_`, and the tag table already holds
the entry `gif_gif_b` for its GIF while the GIF artifact itself is absent. -/
def cfgFull : Config := ⟨true, true, true, 1, true⟩

def vidsGifB : List Video := [⟨"gif_b.mp4", "gif_b"⟩]

def storeGifB : Store := ⟨[], [], [], [⟨"gif_gif_b", "gif", ["t"]⟩]⟩

/-- Scenario for claim C1's amended theorem and witness: one plain video. -/
def vidsPlain : List Video := [⟨"a.mp4", "a"⟩]

/-- Cache-clear scenario for claim C3: everything present, every operation
succeeds except the deletion of the thumbnail directory. -/
def clearOracleRmFail : ClearOracle := ⟨true, true, true, false, true, true, true, true⟩

def cacheFsDemo : CacheFs := ⟨some ["x"], some [], some [], none, none, none⟩

/-! ## General lemmas about the generators -/

theorem genSegments_eq_of_all (o : WebmOracle) (names : List String) (i : Nat)
    (h : ∀ j, j < names.length → o.segOk (i + j) = true) :
    genSegments o names i = (names, true) := by
  induction names generalizing i with
  | nil => rfl
  | cons f rest ih =>
    have h0 : o.segOk i = true := by simpa using h 0 (by simp)
    have hrest : ∀ j, j < rest.length → o.segOk (i + 1 + j) = true := by
      intro j hj
      have heq : i + 1 + j = i + (j + 1) := by omega
      rw [heq]
      exact h (j + 1) (by simpa using Nat.succ_lt_succ hj)
    rw [genSegments, if_pos h0, ih (i + 1) hrest]

theorem genSegments_snd_false (o : WebmOracle) (names : List String) (i : Nat)
    (h : ∃ j, j < names.length ∧ o.segOk (i + j) = false) :
    (genSegments o names i).2 = false := by
  induction names generalizing i with
  | nil =>
    obtain ⟨j, hj, _⟩ := h
    exact absurd hj (by simp)
  | cons f rest ih =>
    by_cases h0 : o.segOk i = true
    · rw [genSegments, if_pos h0]
      apply ih (i + 1)
      obtain ⟨j, hj, hfalse⟩ := h
      match j with
      | 0 => exact absurd hfalse (by simpa using h0)
      | j + 1 =>
        refine ⟨j, by simpa using Nat.lt_of_succ_lt_succ hj, ?_⟩
        have heq : i + 1 + j = i + (j + 1) := by omega
        rw [heq]
        exact hfalse
    · rw [genSegments, if_neg h0]

theorem genGifSegs_all (o : GifOracle) (id : String) (h : ∀ i, i < 5 → o.segOk i = true) :
    genGifSegs o id [0, 1, 2, 3, 4] =
      ([gifSegName id 0, gifSegName id 1, gifSegName id 2, gifSegName id 3, gifSegName id 4],
        5, true) := by
  have h0 := h 0 (by omega)
  have h1 := h 1 (by omega)
  have h2 := h 2 (by omega)
  have h3 := h 3 (by omega)
  have h4 := h 4 (by omega)
  simp [genGifSegs, h0, h1, h2, h3, h4]

/-! ## Claim C9 -/

/-- Claim C9: for every duration `d ≥ 0`, the still-frame generator computes
its capture timestamp as `clamp(0.1 * d, 0, d) = min(max(d * 0.1, 0), d)`, so
the timestamp is never negative and never past the end of the video. -/
theorem C9_still_frame_timestamp (d : ℚ) (h : 0 ≤ d) :
    jpegTimestamp d = min (max (d * (1 / 10)) 0) d ∧
    0 ≤ jpegTimestamp d ∧ jpegTimestamp d ≤ d :=
  ⟨rfl, le_min (le_max_right _ _) h, min_le_right _ _⟩

theorem C9_witness :
    0 ≤ (30 : ℚ) ∧ 0 ≤ jpegTimestamp 30 ∧ jpegTimestamp 30 ≤ 30 :=
  ⟨by norm_num, (C9_still_frame_timestamp 30 (by norm_num)).2⟩

/-! ## Claim C5 -/

/-- Claim C5: for every input with duration below 5 seconds, `generate_gif`
returns a failed/empty result, leaves no files, and performs zero external
tool invocations — the precondition check rejects the input before any codec
call. -/
theorem C5_gif_precondition (o : GifOracle) (id : String) (d : ℚ) (h : d < 5) :
    generate_gif o id d = ⟨"", [], 0⟩ := by
  rw [generate_gif, if_pos h]

theorem C5_witness :
    (3 : ℚ) < 5 ∧ generate_gif ⟨fun _ => true, true⟩ "v" 3 = ⟨"", [], 0⟩ :=
  ⟨by norm_num, C5_gif_precondition ⟨fun _ => true, true⟩ "v" 3 (by norm_num)⟩

/-! ## Claim C10 -/

/-- Claim C10 (implicit): when the duration probe fails, `get_video_duration`
returns `0` rather than raising, and the per-video loop therefore treats the
video as below the 5-second floor and skips it — the loop state (artifacts,
tag data, invocation counters) is left completely unchanged. -/
theorem C10_probe_failure_skips (cfg : Config) (o : Oracle) (s : PipeState) (v : Video)
    (h : o.probe v.path = none) :
    get_video_duration o v.path = 0 ∧ processVideo cfg o s v = s := by
  have hdur : get_video_duration o v.path = 0 := by
    rw [get_video_duration, h]
  exact ⟨hdur, by rw [processVideo, hdur, if_pos (by norm_num : (0 : ℚ) < 5)]⟩

theorem C10_witness :
    (⟨fun _ => none, fun _ => true, fun _ => true, fun _ => true, fun _ => ["t"]⟩ :
        Oracle).probe "x.mp4" = none ∧
    processVideo cfgMarks ⟨fun _ => none, fun _ => true, fun _ => true, fun _ => true,
        fun _ => ["t"]⟩ ⟨emptyStore, [], [], 0, 0, 0⟩ ⟨"x.mp4", "x"⟩ =
      ⟨emptyStore, [], [], 0, 0, 0⟩ :=
  ⟨rfl,
    (C10_probe_failure_skips cfgMarks
      ⟨fun _ => none, fun _ => true, fun _ => true, fun _ => true, fun _ => ["t"]⟩
      ⟨emptyStore, [], [], 0, 0, 0⟩ ⟨"x.mp4", "x"⟩ rfl).2⟩

/-! ## Claim C2 -/

/-- Claim C2 fails as stated: for duration 6 (≤ 60) and segment length 10
(within the configured range [1, 20]), the single segment's clamped start is
`min(max(3, 0), 6 - 10) = -4 < 0`, so the clamped start does not satisfy
`0 ≤ start`. -/
theorem C2_counterexample :
    (6 : ℚ) ≤ 60 ∧ 1 ≤ (10 : ℚ) ∧ (10 : ℚ) ≤ 20 ∧
    webmStarts "v" 6 10 = [-4] ∧ ¬ (0 ≤ (-4 : ℚ)) := by
  refine ⟨by norm_num, by norm_num, by norm_num, ?_, by norm_num⟩
  rw [webmStarts, webmClips, if_neg (by norm_num : ¬ (6 : ℚ) > 60)]
  simp only [List.map_cons, List.map_nil, clampedStart]
  norm_num

/-- Claim C2 (amended): provided the segment length does not exceed the
duration (`1 ≤ segment_length ≤ duration`, which the counterexample shows is
necessary), every clamped start lies in `[0, d - segment_length]`; for
`d ≤ 60` exactly one segment is produced, with nominal start `d/2`; for
`d > 60` three segments with nominal starts `10, d/2, d - 20` are produced,
in the fixed order start, middle, end. -/
theorem C2_segment_policy_amended (id : String) (d L : ℚ) (h1 : 1 ≤ L) (h2 : L ≤ d) :
    (∀ s ∈ webmStarts id d L, 0 ≤ s ∧ s ≤ d - L) ∧
    (d ≤ 60 → webmStarts id d L = [clampedStart d L (d * (1 / 2))]) ∧
    (60 < d → webmStarts id d L =
      [clampedStart d L 10, clampedStart d L (d * (1 / 2)), clampedStart d L (d - 20)]) := by
  have hdL : (0 : ℚ) ≤ d - L := by linarith
  have hbound : ∀ x : ℚ, 0 ≤ clampedStart d L x ∧ clampedStart d L x ≤ d - L := by
    intro x
    exact ⟨le_min (le_max_right _ _) hdL, min_le_right _ _⟩
  refine ⟨?_, ?_, ?_⟩
  · intro s hs
    rw [webmStarts, List.mem_map] at hs
    obtain ⟨c, _, rfl⟩ := hs
    exact hbound c.1
  · intro hle
    rw [webmStarts, webmClips, if_neg (not_lt.2 hle)]
    rfl
  · intro hgt
    rw [webmStarts, webmClips, if_pos hgt]
    rfl

theorem C2_witness :
    1 ≤ (2 : ℚ) ∧ (2 : ℚ) ≤ 30 ∧
    (∀ s ∈ webmStarts "w" 30 2, 0 ≤ s ∧ s ≤ 30 - 2) ∧
    ((30 : ℚ) ≤ 60 → webmStarts "w" 30 2 = [clampedStart 30 2 (30 * (1 / 2))]) :=
  ⟨by norm_num, by norm_num,
    (C2_segment_policy_amended "w" 30 2 (by norm_num) (by norm_num)).1,
    (C2_segment_policy_amended "w" 30 2 (by norm_num) (by norm_num)).2.1⟩

/-! ## Claim C6 -/

/-- Claim C6: in `generate_webm`, a failed segment aborts the operation with a
failure result before the merge is attempted; a failed merge (for `d > 60`,
all segments generated) returns failure and leaves the three transient
segment files on disk; a successful merge leaves only the merged
`{id}.webm`, the transient segments having been deleted. -/
theorem C6_failure_asymmetry (o : WebmOracle) (id : String) (d L : ℚ) :
    ((∃ j, j < (webmClips id d).length ∧ o.segOk j = false) →
      (generate_webm o id d L).urls = [] ∧
      (generate_webm o id d L).mergeAttempted = false) ∧
    (60 < d → (∀ j, j < 3 → o.segOk j = true) → o.mergeOk = false →
      (generate_webm o id d L).urls = [] ∧
      (generate_webm o id d L).mergeAttempted = true ∧
      (generate_webm o id d L).files =
        [id ++ "_start.webm", id ++ "_middle.webm", id ++ "_end.webm"]) ∧
    (60 < d → (∀ j, j < 3 → o.segOk j = true) → o.mergeOk = true →
      (generate_webm o id d L).files = [id ++ ".webm"] ∧
      (generate_webm o id d L).urls = ["/thumbnails/preview/" ++ id ++ ".webm"]) := by
  refine ⟨?_, ?_, ?_⟩
  · intro hfail
    have hlen : ((webmClips id d).map Prod.snd).length = (webmClips id d).length :=
      List.length_map _ _
    have hsnd : (genSegments o ((webmClips id d).map Prod.snd) 0).2 = false := by
      apply genSegments_snd_false
      obtain ⟨j, hj, hfalse⟩ := hfail
      exact ⟨j, by rw [hlen]; exact hj, by simpa using hfalse⟩
    rw [generate_webm]
    simp only [hsnd]
    exact ⟨rfl, rfl⟩
  · intro hgt hall hm
    have hclips : webmClips id d =
        [(10, id ++ "_start.webm"), (d * (1 / 2), id ++ "_middle.webm"),
          (d - 20, id ++ "_end.webm")] := by
      rw [webmClips, if_pos hgt]
    have hgen : genSegments o [id ++ "_start.webm", id ++ "_middle.webm", id ++ "_end.webm"] 0 =
        ([id ++ "_start.webm", id ++ "_middle.webm", id ++ "_end.webm"], true) :=
      genSegments_eq_of_all o _ 0 (fun j hj => by simpa using hall j (by simpa using hj))
    simp [generate_webm, hclips, hgen, hm, hgt]
  · intro hgt hall hm
    have hclips : webmClips id d =
        [(10, id ++ "_start.webm"), (d * (1 / 2), id ++ "_middle.webm"),
          (d - 20, id ++ "_end.webm")] := by
      rw [webmClips, if_pos hgt]
    have hgen : genSegments o [id ++ "_start.webm", id ++ "_middle.webm", id ++ "_end.webm"] 0 =
        ([id ++ "_start.webm", id ++ "_middle.webm", id ++ "_end.webm"], true) :=
      genSegments_eq_of_all o _ 0 (fun j hj => by simpa using hall j (by simpa using hj))
    simp [generate_webm, hclips, hgen, hm, hgt]

theorem C6_witness :
    ((generate_webm ⟨fun j => decide (j ≠ 1), false⟩ "v" 90 2).urls = [] ∧
      (generate_webm ⟨fun j => decide (j ≠ 1), false⟩ "v" 90 2).mergeAttempted = false) ∧
    ((generate_webm ⟨fun _ => true, false⟩ "v" 90 2).files =
      ["v_start.webm", "v_middle.webm", "v_end.webm"]) ∧
    ((generate_webm ⟨fun _ => true, true⟩ "v" 90 2).files = ["v.webm"]) := by
  refine ⟨?_, ?_, ?_⟩
  · exact (C6_failure_asymmetry ⟨fun j => decide (j ≠ 1), false⟩ "v" 90 2).1
      ⟨1, by rw [webmClips, if_pos (by norm_num : (90 : ℚ) > 60)]; norm_num, by decide⟩
  · exact ((C6_failure_asymmetry ⟨fun _ => true, false⟩ "v" 90 2).2.1
      (by norm_num) (fun j _ => rfl) rfl).2.2
  · exact ((C6_failure_asymmetry ⟨fun _ => true, true⟩ "v" 90 2).2.2
      (by norm_num) (fun j _ => rfl) rfl).1

/-! ## Claim C7 -/

/-- Claim C7 fails as stated: with a duration well above 5 seconds (so the
invocation reaches generation), a failure of segment 1 after segment 0
succeeded returns early, and the transient file `v_segment_0.gif` is still on
disk after `generate_gif` returns — the cleanup step does not run on the
segment-generation failure path. -/
theorem C7_counterexample :
    5 ≤ (10 : ℚ) ∧
    (generate_gif ⟨fun i => decide (i = 0), true⟩ "v" 10).url = "" ∧
    (generate_gif ⟨fun i => decide (i = 0), true⟩ "v" 10).files = ["v_segment_0.gif"] := by
  refine ⟨by norm_num, ?_, ?_⟩ <;> decide

/-- Claim C7 (amended): once every one-second segment has been generated, the
cleanup step runs regardless of the merge outcome: on merge success only the
final `{id}.gif` remains, and on merge failure nothing remains and the result
is empty.  (On a segment-generation failure, shown by the counterexample, the
already-created transient segments are left on disk.) -/
theorem C7_gif_cleanup_amended (o : GifOracle) (id : String) (d : ℚ)
    (hd : 5 ≤ d) (hseg : ∀ i, i < 5 → o.segOk i = true) :
    (o.mergeOk = true → (generate_gif o id d).files = [id ++ ".gif"]) ∧
    (o.mergeOk = false → (generate_gif o id d).files = [] ∧ (generate_gif o id d).url = "") := by
  have hd5 : ¬ (d < 5) := not_lt.2 hd
  have hgen := genGifSegs_all o id hseg
  constructor <;> intro hm
  · simp [generate_gif, hd5, hgen, hm]
  · simp [generate_gif, hd5, hgen, hm]

theorem C7_witness :
    ((generate_gif ⟨fun _ => true, true⟩ "w" 10).files = ["w.gif"]) ∧
    ((generate_gif ⟨fun _ => true, false⟩ "w" 10).files = [] ∧
      (generate_gif ⟨fun _ => true, false⟩ "w" 10).url = "") :=
  ⟨(C7_gif_cleanup_amended ⟨fun _ => true, true⟩ "w" 10 (by norm_num)
      (fun i _ => rfl)).1 rfl,
    (C7_gif_cleanup_amended ⟨fun _ => true, false⟩ "w" 10 (by norm_num)
      (fun i _ => rfl)).2 rfl⟩

/-! ## Claim C4 -/

/-- Claim C4 fails as stated: the tag entry `gif_a` survives the prune even
though no GIF artifact for `a` exists, because `clean_orphaned_tags` derives
the namespaced GIF identifiers from the video files, not from the
currently-existing GIF artifacts — `gif_a` is outside the live set the claim
prescribes (`specLiveMediaIds` with no existing GIF artifacts), yet it is
retained. -/
theorem C4_counterexample :
    clean_orphaned_tags [⟨"gif_a", "gif", []⟩] [⟨"a.mp4", "a"⟩] = [⟨"gif_a", "gif", []⟩] ∧
    "gif_a" ∉ specLiveMediaIds [⟨"a.mp4", "a"⟩] [] := by
  constructor <;> decide

/-- Claim C4 (amended): the prune removes exactly those entries whose
`media_id` is neither the stem of a live video nor the `gif_`-prefixed stem of
a live video — GIF-artifact existence is not consulted — and every entry of
the in-memory tag list after the post-loop prune is keyed inside that live
set.  (The persisted CSV of `process_media.py` is append-only; the prune
result lives only in memory.) -/
theorem C4_prune_amended (cfg : Config) (o : Oracle) (video_files : List Video)
    (st : Store) (tags_data : List TagEntry) (e : TagEntry)
    (h : cfg.generate_tags = true) :
    (e ∈ clean_orphaned_tags tags_data video_files ↔
      e ∈ tags_data ∧ (e.media_id ∈ video_files.map Video.stem ∨
        e.media_id ∈ video_files.map (fun v => "gif_" ++ v.stem))) ∧
    (e ∈ (runPipeline cfg o video_files st).tagsData →
      e.media_id ∈ video_files.map Video.stem ∨
      e.media_id ∈ video_files.map (fun v => "gif_" ++ v.stem)) := by
  have hchar : ∀ l : List TagEntry, ∀ x : TagEntry,
      x ∈ clean_orphaned_tags l video_files ↔
        x ∈ l ∧ (x.media_id ∈ video_files.map Video.stem ∨
          x.media_id ∈ video_files.map (fun v => "gif_" ++ v.stem)) := by
    intro l x
    simp [clean_orphaned_tags, List.mem_filter]
  refine ⟨hchar tags_data e, ?_⟩
  intro hm
  rw [runPipeline] at hm
  simp only [h, if_pos] at hm
  exact ((hchar _ e).1 hm).2

theorem C4_witness :
    cfgFull.generate_tags = true ∧
    (⟨"a", "video", ["t"]⟩ ∈ clean_orphaned_tags [⟨"a", "video", ["t"]⟩] vidsPlain ↔
      ⟨"a", "video", ["t"]⟩ ∈ [(⟨"a", "video", ["t"]⟩ : TagEntry)] ∧
      (("a" : String) ∈ vidsPlain.map Video.stem ∨
        ("a" : String) ∈ vidsPlain.map (fun v => "gif_" ++ v.stem))) :=
  ⟨rfl, (C4_prune_amended cfgFull demoOracle vidsPlain emptyStore
    [⟨"a", "video", ["t"]⟩] ⟨"a", "video", ["t"]⟩ rfl).1⟩

/-! ## Claim C3 -/

theorem backupThumbsStep_live (o : ClearOracle) (fs : CacheFs) :
    (backupThumbsStep o fs).2.thumbsPreview = fs.thumbsPreview ∧
    (backupThumbsStep o fs).2.gifDir = fs.gifDir ∧
    (backupThumbsStep o fs).2.tagsCsv = fs.tagsCsv := by
  simp only [backupThumbsStep]
  split_ifs <;> simp

theorem backupGifsStep_live (o : ClearOracle) (fs : CacheFs) :
    (backupGifsStep o fs).2.thumbsPreview = fs.thumbsPreview ∧
    (backupGifsStep o fs).2.gifDir = fs.gifDir ∧
    (backupGifsStep o fs).2.tagsCsv = fs.tagsCsv := by
  simp only [backupGifsStep]
  split_ifs <;> simp

theorem backupTagsStep_live (o : ClearOracle) (fs : CacheFs) :
    (backupTagsStep o fs).2.thumbsPreview = fs.thumbsPreview ∧
    (backupTagsStep o fs).2.gifDir = fs.gifDir ∧
    (backupTagsStep o fs).2.tagsCsv = fs.tagsCsv := by
  simp only [backupTagsStep]
  split_ifs <;> simp

/-- The whole backup phase never touches the live directories or tag table. -/
theorem backupPhase_live (o : ClearOracle) (fs : CacheFs) :
    (backupPhase o fs).2.thumbsPreview = fs.thumbsPreview ∧
    (backupPhase o fs).2.gifDir = fs.gifDir ∧
    (backupPhase o fs).2.tagsCsv = fs.tagsCsv := by
  have t1 := backupThumbsStep_live o fs
  have t2 := backupGifsStep_live o (backupThumbsStep o fs).2
  have t3 := backupTagsStep_live o (backupGifsStep o (backupThumbsStep o fs).2).2
  simp only [backupPhase, abortSeq]
  split_ifs <;> simp_all

theorem backupThumbsStep_fst (o : ClearOracle) (fs : CacheFs) :
    (backupThumbsStep o fs).1 = true ↔ fs.thumbsPreview.isSome ∧ o.copyThumbsOk = false := by
  simp only [backupThumbsStep]
  split_ifs <;> simp_all

theorem backupGifsStep_fst (o : ClearOracle) (fs : CacheFs) :
    (backupGifsStep o fs).1 = true ↔ fs.gifDir.isSome ∧ o.copyGifsOk = false := by
  simp only [backupGifsStep]
  split_ifs <;> simp_all

theorem backupTagsStep_fst (o : ClearOracle) (fs : CacheFs) :
    (backupTagsStep o fs).1 = true ↔ fs.tagsCsv.isSome ∧ o.copyTagsOk = false := by
  simp only [backupTagsStep]
  split_ifs <;> simp_all

/-- A failure while copying any of the three present backup sources makes the
backup phase raise. -/
theorem backupPhase_abort (o : ClearOracle) (fs : CacheFs)
    (hb : (fs.thumbsPreview.isSome ∧ o.copyThumbsOk = false) ∨
      (fs.gifDir.isSome ∧ o.copyGifsOk = false) ∨
      (fs.tagsCsv.isSome ∧ o.copyTagsOk = false)) :
    (backupPhase o fs).1 = true := by
  have t1 := backupThumbsStep_live o fs
  have t2 := backupGifsStep_live o (backupThumbsStep o fs).2
  rcases hb with h | h | h
  · have h1 : (backupThumbsStep o fs).1 = true := (backupThumbsStep_fst o fs).2 h
    rw [backupPhase, abortSeq, if_pos h1]
    exact h1
  · by_cases h1 : (backupThumbsStep o fs).1 = true
    · rw [backupPhase, abortSeq, if_pos h1]
      exact h1
    · have h2 : (backupGifsStep o (backupThumbsStep o fs).2).1 = true :=
        (backupGifsStep_fst o _).2 (by rw [t1.2.1]; exact h)
      rw [backupPhase, abortSeq, if_neg h1, abortSeq, if_pos h2]
      exact h2
  · by_cases h1 : (backupThumbsStep o fs).1 = true
    · rw [backupPhase, abortSeq, if_pos h1]
      exact h1
    · by_cases h2 : (backupGifsStep o (backupThumbsStep o fs).2).1 = true
      · rw [backupPhase, abortSeq, if_neg h1, abortSeq, if_pos h2]
        exact h2
      · have h3 : (backupTagsStep o (backupGifsStep o (backupThumbsStep o fs).2).2).1 = true :=
          (backupTagsStep_fst o _).2 (by rw [t2.2.2, t1.2.2]; exact h)
        rw [backupPhase, abortSeq, if_neg h1, abortSeq, if_neg h2]
        exact h3

theorem deletePhase_unlink_abort (o : ClearOracle) (fs : CacheFs)
    (h : fs.tagsCsv.isSome ∧ o.unlinkTagsOk = false) :
    (deletePhase o fs).1 = true := by
  simp only [deletePhase]
  split_ifs <;> simp_all

theorem deletePhase_mkThumbs_abort (o : ClearOracle) (fs : CacheFs)
    (h : o.mkThumbsOk = false) :
    (deletePhase o fs).1 = true := by
  simp only [deletePhase]
  split_ifs <;> simp_all

theorem deletePhase_mkGifs_abort (o : ClearOracle) (fs : CacheFs)
    (h : o.mkGifsOk = false) :
    (deletePhase o fs).1 = true := by
  simp only [deletePhase]
  split_ifs <;> simp_all

/-- Claim C3 fails as stated: with every backup succeeding but the deletion of
the live thumbnail directory failing, the run does not abort — the directory
deletions use `ignore_errors=True`, so the failure is swallowed, the thumbnail
directory keeps its contents, and the run continues. -/
theorem C3_counterexample :
    (clearCache clearOracleRmFail cacheFsDemo).1 = false ∧
    clearOracleRmFail.rmThumbsOk = false ∧
    (clearCache clearOracleRmFail cacheFsDemo).2.thumbsPreview = some ["x"] := by
  refine ⟨?_, rfl, ?_⟩ <;> decide

/-- Claim C3 (amended): a failure while backing up the thumbnail directory,
the GIF directory or the tag table aborts the run with the live artifact
directories and the tag table untouched (backups complete before any deletion
begins); a failure of the tag-table unlink or of the directory re-creation
also aborts the run; only the artifact-directory deletions, made with
`ignore_errors=True`, do not abort on failure. -/
theorem C3_cache_clear_amended (o : ClearOracle) (fs : CacheFs) :
    (((fs.thumbsPreview.isSome ∧ o.copyThumbsOk = false) ∨
      (fs.gifDir.isSome ∧ o.copyGifsOk = false) ∨
      (fs.tagsCsv.isSome ∧ o.copyTagsOk = false)) →
      (clearCache o fs).1 = true ∧
      (clearCache o fs).2.thumbsPreview = fs.thumbsPreview ∧
      (clearCache o fs).2.gifDir = fs.gifDir ∧
      (clearCache o fs).2.tagsCsv = fs.tagsCsv) ∧
    ((fs.tagsCsv.isSome ∧ o.unlinkTagsOk = false) → (clearCache o fs).1 = true) ∧
    (o.mkThumbsOk = false → (clearCache o fs).1 = true) ∧
    (o.mkGifsOk = false → (clearCache o fs).1 = true) := by
  have hlive := backupPhase_live o fs
  refine ⟨?_, ?_, ?_, ?_⟩
  · intro hb
    have ha := backupPhase_abort o fs hb
    rw [clearCache, abortSeq, if_pos ha]
    exact ⟨ha, hlive⟩
  · intro hu
    by_cases ha : (backupPhase o fs).1 = true
    · rw [clearCache, abortSeq, if_pos ha]
      exact ha
    · rw [clearCache, abortSeq, if_neg ha]
      exact deletePhase_unlink_abort o _ ⟨by rw [hlive.2.2]; exact hu.1, hu.2⟩
  · intro hmk
    by_cases ha : (backupPhase o fs).1 = true
    · rw [clearCache, abortSeq, if_pos ha]
      exact ha
    · rw [clearCache, abortSeq, if_neg ha]
      exact deletePhase_mkThumbs_abort o _ hmk
  · intro hmk
    by_cases ha : (backupPhase o fs).1 = true
    · rw [clearCache, abortSeq, if_pos ha]
      exact ha
    · rw [clearCache, abortSeq, if_neg ha]
      exact deletePhase_mkGifs_abort o _ hmk

theorem C3_witness :
    ((cacheFsDemo.thumbsPreview.isSome ∧ (⟨false, true, true, true, true, true, true,
        true⟩ : ClearOracle).copyThumbsOk = false) ∨
      (cacheFsDemo.gifDir.isSome ∧ (true : Bool) = false) ∨
      (cacheFsDemo.tagsCsv.isSome ∧ (true : Bool) = false)) ∧
    (clearCache ⟨false, true, true, true, true, true, true, true⟩ cacheFsDemo).1 = true ∧
    (clearCache ⟨false, true, true, true, true, true, true, true⟩
        cacheFsDemo).2.thumbsPreview = cacheFsDemo.thumbsPreview ∧
    (clearCache ⟨false, true, true, true, true, true, true, true⟩
        cacheFsDemo).2.gifDir = cacheFsDemo.gifDir ∧
    (clearCache ⟨false, true, true, true, true, true, true, true⟩
        cacheFsDemo).2.tagsCsv = cacheFsDemo.tagsCsv :=
  ⟨Or.inl ⟨rfl, rfl⟩,
    (C3_cache_clear_amended ⟨false, true, true, true, true, true, true, true⟩
      cacheFsDemo).1 (Or.inl ⟨rfl, rfl⟩)⟩

/-! ## Lemmas about the gif-id guard and the tag-table invariant -/

theorem mem_gifStrippedIds (ids : List String) (g id : String)
    (hpre : pyStartsWith g "gif_" = true) (hrep : pyReplace g "gif_" "" = id)
    (hg : g ∈ ids) : id ∈ gifStrippedIds ids := by
  rw [gifStrippedIds, List.mem_map]
  exact ⟨g, List.mem_filter.2 ⟨hg, hpre⟩, hrep⟩

/-- Soundness of the gif-side guard, under the proviso that stripping the
`gif_` prefix from the namespaced id gives back the video id (true whenever the
video id itself contains no occurrence of `gif_`). -/
theorem gifTagGuard_not_mem (ids : List String) (id : String)
    (hrep : pyReplace ("gif_" ++ id) "gif_" "" = id)
    (hpre : pyStartsWith ("gif_" ++ id) "gif_" = true)
    (hguard : gifTagGuard ids id = true) : "gif_" ++ id ∉ ids := by
  intro hmem
  have hin : id ∈ gifStrippedIds ids := mem_gifStrippedIds ids _ id hpre hrep hmem
  rw [gifTagGuard] at hguard
  simp [hin] at hguard

theorem TagInv_of_tagFieldsEq (s t : PipeState) (h : tagFieldsEq s t) (hinv : TagInv s) :
    TagInv t := by
  obtain ⟨h1, h2, h3⟩ := h
  exact ⟨by rw [h1, h2]; exact hinv.1, by rw [h2]; exact hinv.2.1,
    by rw [h3, h2]; exact hinv.2.2⟩

theorem appendEntry_TagInv (s : PipeState) (e : TagEntry) (hinv : TagInv s)
    (hnm : e.media_id ∉ s.existing) : TagInv (appendEntry s e) := by
  obtain ⟨hiff, hnodup, hdata⟩ := hinv
  have hnm2 : e.media_id ∉ s.store.csvRows.map TagEntry.media_id :=
    fun h => hnm ((hiff e.media_id).2 h)
  refine ⟨?_, ?_, ?_⟩
  · intro x
    rw [appendEntry]
    simp only [List.mem_insert_iff, List.map_append, List.mem_append, List.map_cons,
      List.map_nil, List.mem_singleton, hiff x]
    tauto
  · rw [appendEntry]
    simp only [List.map_append, List.map_cons, List.map_nil]
    rw [List.nodup_append]
    exact ⟨hnodup, List.nodup_singleton _, by simpa using fun h => hnm2 h⟩
  · rw [appendEntry]
    simp only [hdata]

theorem tryJpeg_tagFieldsEq (o : Oracle) (id : String) (s : PipeState) :
    tagFieldsEq s (tryJpeg o id s).1 := by
  rw [tryJpeg]
  split_ifs <;> simp [tagFieldsEq, addJpeg, bumpCodec]

theorem tryWebm_tagFieldsEq (o : Oracle) (id : String) (s : PipeState) :
    tagFieldsEq s (tryWebm o id s).1 := by
  rw [tryWebm]
  split_ifs <;> simp [tagFieldsEq, addWebm, bumpCodec]

theorem thumbsStage_tagFieldsEq (cfg : Config) (o : Oracle) (id : String) (s : PipeState) :
    tagFieldsEq s (thumbsStage cfg o id s).1 := by
  rw [thumbsStage]
  by_cases ht : cfg.generate_thumbs = true
  · rw [if_pos ht]
    have hj := tryJpeg_tagFieldsEq o id s
    rcases hje : tryJpeg o id s with ⟨s1, ju⟩
    rw [hje] at hj
    simp only [hje]
    rcases ju with _ | ju
    · exact hj
    · have hw := tryWebm_tagFieldsEq o id s1
      rcases hwe : tryWebm o id s1 with ⟨s2, b⟩
      rw [hwe] at hw
      simp only [hwe]
      rcases b with _ | _ <;>
        exact ⟨hw.1.trans hj.1, hw.2.1.trans hj.2.1, hw.2.2.trans hj.2.2⟩
  · rw [if_neg ht]
    exact ⟨rfl, rfl, rfl⟩

theorem tag_image_state (o : Oracle) (n : Nat) (id : String) (s : PipeState) :
    tagFieldsEq s (tag_image o n id s).1 ∧ (tag_image o n id s).1.store = s.store ∧
    (tag_image o n id s).1.existing = s.existing := by
  rw [tag_image]
  split_ifs <;> simp [tagFieldsEq, bumpClassifier]

theorem gifStage_TagInv (cfg : Config) (o : Oracle) (id : String) (s : PipeState)
    (hinv : TagInv s)
    (hrep : pyReplace ("gif_" ++ id) "gif_" "" = id)
    (hpre : pyStartsWith ("gif_" ++ id) "gif_" = true) :
    TagInv (gifStage cfg o id s).1 := by
  rw [gifStage]
  by_cases hcond : cfg.generate_gifs = true ∧ id ∉ s.store.gifs ∧
      gifTagGuard s.existing id = true
  · rw [if_pos hcond]
    by_cases hok : o.gifOk id = true
    · rw [if_pos hok]
      have hfields2 : tagFieldsEq s (addGif (bumpCodec s) id) := by
        simp [tagFieldsEq, addGif, bumpCodec]
      have hinv2 : TagInv (addGif (bumpCodec s) id) :=
        TagInv_of_tagFieldsEq s _ hfields2 hinv
      by_cases htag : cfg.generate_tags = true ∧ cfg.taggerLoaded = true
      · rw [if_pos htag]
        have hti := tag_image_state o cfg.num_tags id (addGif (bumpCodec s) id)
        have hinv3 : TagInv (tag_image o cfg.num_tags id (addGif (bumpCodec s) id)).1 :=
          TagInv_of_tagFieldsEq _ _ hti.1 hinv2
        by_cases hr : (tag_image o cfg.num_tags id (addGif (bumpCodec s) id)).2 = []
        · rw [if_pos hr]
          exact hinv3
        · rw [if_neg hr]
          apply appendEntry_TagInv _ _ hinv3
          have hex : (tag_image o cfg.num_tags id (addGif (bumpCodec s) id)).1.existing =
              s.existing := by
            rw [hti.2.2]
            simp [addGif, bumpCodec]
          rw [hex]
          exact gifTagGuard_not_mem s.existing id hrep hpre hcond.2.2
      · rw [if_neg htag]
        exact hinv2
    · rw [if_neg hok]
      exact TagInv_of_tagFieldsEq s _ (by simp [tagFieldsEq, bumpCodec]) hinv
  · rw [if_neg hcond]
    exact hinv

theorem videoTagStage_TagInv (cfg : Config) (o : Oracle) (id : String) (ju : String)
    (s : PipeState) (hinv : TagInv s) : TagInv (videoTagStage cfg o id ju s) := by
  rw [videoTagStage]
  by_cases hcond : cfg.generate_tags = true ∧ id ∉ s.existing ∧ ju ≠ ""
  · rw [if_pos hcond]
    by_cases htg : cfg.taggerLoaded = true
    · rw [if_pos htg]
      have hinv1 : TagInv (bumpClassifier s) :=
        TagInv_of_tagFieldsEq s _ (by simp [tagFieldsEq, bumpClassifier]) hinv
      by_cases hr : (o.classify id).take cfg.num_tags = []
      · rw [if_pos hr]
        exact hinv1
      · rw [if_neg hr]
        apply appendEntry_TagInv _ _ hinv1
        simpa [bumpClassifier] using hcond.2.1
    · rw [if_neg htg]
      exact hinv
  · rw [if_neg hcond]
    exact hinv

theorem processVideo_TagInv (cfg : Config) (o : Oracle) (s : PipeState) (v : Video)
    (hinv : TagInv s)
    (hrep : pyReplace ("gif_" ++ v.stem) "gif_" "" = v.stem)
    (hpre : pyStartsWith ("gif_" ++ v.stem) "gif_" = true) :
    TagInv (processVideo cfg o s v) := by
  rw [processVideo]
  by_cases hd : get_video_duration o v.path < 5
  · rw [if_pos hd]
    exact hinv
  · rw [if_neg hd]
    have hth := thumbsStage_tagFieldsEq cfg o v.stem s
    rcases hts : thumbsStage cfg o v.stem s with ⟨s1, ju⟩
    rw [hts] at hth
    simp only [hts]
    have hinv1 : TagInv s1 := TagInv_of_tagFieldsEq s s1 hth hinv
    rcases ju with _ | ju
    · exact hinv1
    · have hinv2 := gifStage_TagInv cfg o v.stem s1 hinv1 hrep hpre
      rcases hgs : gifStage cfg o v.stem s1 with ⟨s2, b⟩
      rw [hgs] at hinv2
      simp only [hgs]
      rcases b with _ | _
      · exact hinv2
      · have hinv3 := videoTagStage_TagInv cfg o v.stem ju s2 hinv2
        exact TagInv_of_tagFieldsEq _ _ ⟨rfl, rfl, rfl⟩ hinv3

theorem foldl_TagInv (cfg : Config) (o : Oracle) (l : List Video)
    (hl : ∀ v ∈ l, pyReplace ("gif_" ++ v.stem) "gif_" "" = v.stem ∧
      pyStartsWith ("gif_" ++ v.stem) "gif_" = true) :
    ∀ s, TagInv s → TagInv (l.foldl (processVideo cfg o) s) := by
  induction l with
  | nil => exact fun s hs => hs
  | cons u l ih =>
    intro s hs
    rw [List.foldl_cons]
    have hu := hl u (List.mem_cons_self u l)
    exact ih (fun v hv => hl v (List.mem_cons_of_mem u hv)) _
      (processVideo_TagInv cfg o s u hs hu.1 hu.2)

/-! ## Claim C8 -/

/-- Claim C8 fails as stated: starting from a duplicate-free tag table holding
`gif_gif_b` (left by a previous run over the video `gif_b.mp4`) with the GIF
artifact absent, a run over the same video appends a second `gif_gif_b` row —
the gif-branch guard compares `video_id` against `id.replace("gif_", "")`
(which removes every occurrence, mapping `gif_gif_b` to `b` ≠ `gif_b`), so it
is not a membership check on the existing-id set, and the persisted media-id
keys end up duplicated. -/
theorem C8_counterexample :
    (storeGifB.csvRows.map TagEntry.media_id).Nodup ∧
    pyReplace ("gif_" ++ "gif_b") "gif_" "" ≠ "gif_b" ∧
    ¬ ((runPipeline cfgFull demoOracle vidsGifB storeGifB).store.csvRows.map
        TagEntry.media_id).Nodup := by
  refine ⟨by decide, by decide, by decide⟩

/-- Claim C8 (amended): provided every live video stem survives the guard's
prefix-stripping intact (`("gif_" + stem).replace("gif_", "") = stem`, i.e. no
stem contains `gif_`), a run started on a duplicate-free tag table keeps the
media-id keys of both the persisted rows and the in-memory tag list free of
duplicates: the video-entry append is guarded by an exact membership check,
and under the proviso the gif-entry guard implies the namespaced id is absent. -/
theorem C8_uniqueness_amended (cfg : Config) (o : Oracle) (video_files : List Video)
    (st : Store)
    (hnodup : (st.csvRows.map TagEntry.media_id).Nodup)
    (hgifid : ∀ v ∈ video_files, pyReplace ("gif_" ++ v.stem) "gif_" "" = v.stem ∧
      pyStartsWith ("gif_" ++ v.stem) "gif_" = true) :
    ((runPipeline cfg o video_files st).store.csvRows.map TagEntry.media_id).Nodup ∧
    ((runPipeline cfg o video_files st).tagsData.map TagEntry.media_id).Nodup := by
  simp only [runPipeline]
  set st1 := if cfg.generate_thumbs || cfg.generate_gifs then
    clean_thumbnails_and_gifs video_files st else st with hst1
  have hclean : st1.csvRows = st.csvRows := by
    rw [hst1]
    split_ifs <;> rfl
  set s0 : PipeState := ⟨st1, st.csvRows, st.csvRows.map TagEntry.media_id, 0, 0, 0⟩
    with hs0
  have hinit : TagInv s0 := by
    refine ⟨fun x => ?_, ?_, ?_⟩
    · rw [hs0]
      simp only [hclean]
    · rw [hs0]
      simp only [hclean]
      exact hnodup
    · rw [hs0]
      simp only [hclean]
  set sf := video_files.foldl (processVideo cfg o) s0 with hsf
  obtain ⟨hiff, hnd, hdata⟩ := foldl_TagInv cfg o video_files hgifid s0 hinit
  by_cases ht : cfg.generate_tags = true
  · rw [if_pos ht]
    refine ⟨hnd, ?_⟩
    have hsub : ((clean_orphaned_tags sf.tagsData video_files).map
        TagEntry.media_id).Sublist (sf.tagsData.map TagEntry.media_id) :=
      List.Sublist.map _ (List.filter_sublist _)
    exact List.Nodup.sublist hsub (by rw [hsf, hdata]; exact hnd)
  · rw [if_neg ht]
    exact ⟨hnd, by rw [hsf, hdata]; exact hnd⟩

theorem C8_witness :
    ((⟨[], [], [], [⟨"a", "video", ["t"]⟩]⟩ :
        Store).csvRows.map TagEntry.media_id).Nodup ∧
    ((runPipeline cfgFull demoOracle vidsPlain
        ⟨[], [], [], [⟨"a", "video", ["t"]⟩]⟩).store.csvRows.map TagEntry.media_id).Nodup ∧
    ((runPipeline cfgFull demoOracle vidsPlain
        ⟨[], [], [], [⟨"a", "video", ["t"]⟩]⟩).tagsData.map TagEntry.media_id).Nodup :=
  ⟨by decide,
    (C8_uniqueness_amended cfgFull demoOracle vidsPlain
      ⟨[], [], [], [⟨"a", "video", ["t"]⟩]⟩ (by decide) (by decide)).1,
    (C8_uniqueness_amended cfgFull demoOracle vidsPlain
      ⟨[], [], [], [⟨"a", "video", ["t"]⟩]⟩ (by decide) (by decide)).2⟩

/-! ## Lemmas toward idempotence: synchronisation, monotonicity -/

theorem TagSync_of_tagFieldsEq (s t : PipeState) (h : tagFieldsEq s t) (hs : TagSync s) :
    TagSync t := by
  obtain ⟨h1, h2, h3⟩ := h
  exact ⟨by rw [h1, h2]; exact hs.1, by rw [h3, h2]; exact hs.2⟩

theorem appendEntry_TagSync (s : PipeState) (e : TagEntry) (hs : TagSync s) :
    TagSync (appendEntry s e) := by
  obtain ⟨hiff, hdata⟩ := hs
  constructor
  · intro x
    rw [appendEntry]
    simp only [List.mem_insert_iff, List.map_append, List.mem_append, List.map_cons,
      List.map_nil, List.mem_singleton, hiff x]
    tauto
  · rw [appendEntry]
    simp only [hdata]

theorem gifStage_TagSync (cfg : Config) (o : Oracle) (id : String) (s : PipeState)
    (hs : TagSync s) : TagSync (gifStage cfg o id s).1 := by
  rw [gifStage]
  by_cases hcond : cfg.generate_gifs = true ∧ id ∉ s.store.gifs ∧
      gifTagGuard s.existing id = true
  · rw [if_pos hcond]
    by_cases hok : o.gifOk id = true
    · rw [if_pos hok]
      have hs2 : TagSync (addGif (bumpCodec s) id) :=
        TagSync_of_tagFieldsEq s _ (by simp [tagFieldsEq, addGif, bumpCodec]) hs
      by_cases htag : cfg.generate_tags = true ∧ cfg.taggerLoaded = true
      · rw [if_pos htag]
        have hti := tag_image_state o cfg.num_tags id (addGif (bumpCodec s) id)
        have hs3 : TagSync (tag_image o cfg.num_tags id (addGif (bumpCodec s) id)).1 :=
          TagSync_of_tagFieldsEq _ _ hti.1 hs2
        by_cases hr : (tag_image o cfg.num_tags id (addGif (bumpCodec s) id)).2 = []
        · rw [if_pos hr]
          exact hs3
        · rw [if_neg hr]
          exact appendEntry_TagSync _ _ hs3
      · rw [if_neg htag]
        exact hs2
    · rw [if_neg hok]
      exact TagSync_of_tagFieldsEq s _ (by simp [tagFieldsEq, bumpCodec]) hs
  · rw [if_neg hcond]
    exact hs

theorem videoTagStage_TagSync (cfg : Config) (o : Oracle) (id : String) (ju : String)
    (s : PipeState) (hs : TagSync s) : TagSync (videoTagStage cfg o id ju s) := by
  rw [videoTagStage]
  by_cases hcond : cfg.generate_tags = true ∧ id ∉ s.existing ∧ ju ≠ ""
  · rw [if_pos hcond]
    by_cases htg : cfg.taggerLoaded = true
    · rw [if_pos htg]
      have hs1 : TagSync (bumpClassifier s) :=
        TagSync_of_tagFieldsEq s _ (by simp [tagFieldsEq, bumpClassifier]) hs
      by_cases hr : (o.classify id).take cfg.num_tags = []
      · rw [if_pos hr]
        exact hs1
      · rw [if_neg hr]
        exact appendEntry_TagSync _ _ hs1
    · rw [if_neg htg]
      exact hs
  · rw [if_neg hcond]
    exact hs

theorem processVideo_TagSync (cfg : Config) (o : Oracle) (s : PipeState) (v : Video)
    (hs : TagSync s) : TagSync (processVideo cfg o s v) := by
  rw [processVideo]
  by_cases hd : get_video_duration o v.path < 5
  · rw [if_pos hd]
    exact hs
  · rw [if_neg hd]
    have hth := thumbsStage_tagFieldsEq cfg o v.stem s
    rcases hts : thumbsStage cfg o v.stem s with ⟨s1, ju⟩
    rw [hts] at hth
    simp only [hts]
    have hs1 : TagSync s1 := TagSync_of_tagFieldsEq s s1 hth hs
    rcases ju with _ | ju
    · exact hs1
    · have hs2 := gifStage_TagSync cfg o v.stem s1 hs1
      rcases hgs : gifStage cfg o v.stem s1 with ⟨s2, b⟩
      rw [hgs] at hs2
      simp only [hgs]
      rcases b with _ | _
      · exact hs2
      · have hs3 := videoTagStage_TagSync cfg o v.stem ju s2 hs2
        exact TagSync_of_tagFieldsEq _ _ ⟨rfl, rfl, rfl⟩ hs3

theorem foldl_TagSync (cfg : Config) (o : Oracle) (l : List Video) :
    ∀ s, TagSync s → TagSync (l.foldl (processVideo cfg o) s) := by
  induction l with
  | nil => exact fun s hs => hs
  | cons u l ih =>
    intro s hs
    rw [List.foldl_cons]
    exact ih _ (processVideo_TagSync cfg o s u hs)

theorem stateLE_refl (s : PipeState) : stateLE s s :=
  ⟨fun _ h => h, fun _ h => h, fun _ h => h, fun _ h => h, fun _ h => h⟩

theorem stateLE_trans (s t u : PipeState) (h1 : stateLE s t) (h2 : stateLE t u) :
    stateLE s u :=
  ⟨fun x h => h2.1 x (h1.1 x h), fun x h => h2.2.1 x (h1.2.1 x h),
    fun x h => h2.2.2.1 x (h1.2.2.1 x h), fun x h => h2.2.2.2.1 x (h1.2.2.2.1 x h),
    fun x h => h2.2.2.2.2 x (h1.2.2.2.2 x h)⟩

theorem stateLE_bumpCodec (s : PipeState) : stateLE s (bumpCodec s) :=
  stateLE_refl s

theorem stateLE_bumpClassifier (s : PipeState) : stateLE s (bumpClassifier s) :=
  stateLE_refl s

theorem stateLE_addJpeg (s : PipeState) (id : String) : stateLE s (addJpeg s id) :=
  ⟨fun x h => List.mem_cons_of_mem _ h, fun _ h => h, fun _ h => h, fun _ h => h,
    fun _ h => h⟩

theorem stateLE_addWebm (s : PipeState) (id : String) : stateLE s (addWebm s id) :=
  ⟨fun _ h => h, fun x h => List.mem_cons_of_mem _ h, fun _ h => h, fun _ h => h,
    fun _ h => h⟩

theorem stateLE_addGif (s : PipeState) (id : String) : stateLE s (addGif s id) :=
  ⟨fun _ h => h, fun _ h => h, fun x h => List.mem_cons_of_mem _ h, fun _ h => h,
    fun _ h => h⟩

theorem stateLE_appendEntry (s : PipeState) (e : TagEntry) : stateLE s (appendEntry s e) :=
  ⟨fun _ h => h, fun _ h => h, fun _ h => h,
    fun x h => List.mem_insert_of_mem h,
    fun x h => List.mem_append_left _ h⟩

theorem tryJpeg_mono (o : Oracle) (id : String) (s : PipeState) :
    stateLE s (tryJpeg o id s).1 := by
  rw [tryJpeg]
  split_ifs
  · exact stateLE_refl s
  · exact stateLE_trans s _ _ (stateLE_bumpCodec s) (stateLE_addJpeg _ id)
  · exact stateLE_bumpCodec s

theorem tryWebm_mono (o : Oracle) (id : String) (s : PipeState) :
    stateLE s (tryWebm o id s).1 := by
  rw [tryWebm]
  split_ifs
  · exact stateLE_refl s
  · exact stateLE_trans s _ _ (stateLE_bumpCodec s) (stateLE_addWebm _ id)
  · exact stateLE_bumpCodec s

theorem thumbsStage_mono (cfg : Config) (o : Oracle) (id : String) (s : PipeState) :
    stateLE s (thumbsStage cfg o id s).1 := by
  rw [thumbsStage]
  by_cases ht : cfg.generate_thumbs = true
  · rw [if_pos ht]
    have hj := tryJpeg_mono o id s
    rcases hje : tryJpeg o id s with ⟨s1, ju⟩
    rw [hje] at hj
    simp only [hje]
    rcases ju with _ | ju
    · exact hj
    · have hw := tryWebm_mono o id s1
      rcases hwe : tryWebm o id s1 with ⟨s2, b⟩
      rw [hwe] at hw
      simp only [hwe]
      rcases b with _ | _ <;> exact stateLE_trans s s1 s2 hj hw
  · rw [if_neg ht]
    exact stateLE_refl s

theorem tag_image_mono (o : Oracle) (n : Nat) (id : String) (s : PipeState) :
    stateLE s (tag_image o n id s).1 := by
  rw [tag_image]
  split_ifs <;> exact stateLE_refl s

theorem gifStage_mono (cfg : Config) (o : Oracle) (id : String) (s : PipeState) :
    stateLE s (gifStage cfg o id s).1 := by
  rw [gifStage]
  by_cases hcond : cfg.generate_gifs = true ∧ id ∉ s.store.gifs ∧
      gifTagGuard s.existing id = true
  · rw [if_pos hcond]
    by_cases hok : o.gifOk id = true
    · rw [if_pos hok]
      have hbase : stateLE s (addGif (bumpCodec s) id) :=
        stateLE_trans s _ _ (stateLE_bumpCodec s) (stateLE_addGif _ id)
      by_cases htag : cfg.generate_tags = true ∧ cfg.taggerLoaded = true
      · rw [if_pos htag]
        have hti : stateLE (addGif (bumpCodec s) id)
            (tag_image o cfg.num_tags id (addGif (bumpCodec s) id)).1 :=
          tag_image_mono o cfg.num_tags id _
        have hupto : stateLE s (tag_image o cfg.num_tags id (addGif (bumpCodec s) id)).1 :=
          stateLE_trans s _ _ hbase hti
        by_cases hr : (tag_image o cfg.num_tags id (addGif (bumpCodec s) id)).2 = []
        · rw [if_pos hr]
          exact hupto
        · rw [if_neg hr]
          exact stateLE_trans s _ _ hupto (stateLE_appendEntry _ _)
      · rw [if_neg htag]
        exact hbase
    · rw [if_neg hok]
      exact stateLE_bumpCodec s
  · rw [if_neg hcond]
    exact stateLE_refl s

theorem videoTagStage_mono (cfg : Config) (o : Oracle) (id : String) (ju : String)
    (s : PipeState) : stateLE s (videoTagStage cfg o id ju s) := by
  rw [videoTagStage]
  by_cases hcond : cfg.generate_tags = true ∧ id ∉ s.existing ∧ ju ≠ ""
  · rw [if_pos hcond]
    by_cases htg : cfg.taggerLoaded = true
    · rw [if_pos htg]
      by_cases hr : (o.classify id).take cfg.num_tags = []
      · rw [if_pos hr]
        exact stateLE_bumpClassifier s
      · rw [if_neg hr]
        exact stateLE_trans s _ _ (stateLE_bumpClassifier s) (stateLE_appendEntry _ _)
    · rw [if_neg htg]
      exact stateLE_refl s
  · rw [if_neg hcond]
    exact stateLE_refl s

theorem stateLE_succBump (s : PipeState) :
    stateLE s { s with successCount := s.successCount + 1 } :=
  ⟨fun _ h => h, fun _ h => h, fun _ h => h, fun _ h => h, fun _ h => h⟩

theorem processVideo_mono (cfg : Config) (o : Oracle) (s : PipeState) (v : Video) :
    stateLE s (processVideo cfg o s v) := by
  rw [processVideo]
  by_cases hd : get_video_duration o v.path < 5
  · rw [if_pos hd]
    exact stateLE_refl s
  · rw [if_neg hd]
    have hth := thumbsStage_mono cfg o v.stem s
    rcases hts : thumbsStage cfg o v.stem s with ⟨s1, ju⟩
    rw [hts] at hth
    simp only [hts]
    rcases ju with _ | ju
    · exact hth
    · have hgm := gifStage_mono cfg o v.stem s1
      rcases hgs : gifStage cfg o v.stem s1 with ⟨s2, b⟩
      rw [hgs] at hgm
      simp only [hgs]
      rcases b with _ | _
      · exact stateLE_trans s s1 s2 hth hgm
      · have hvm := videoTagStage_mono cfg o v.stem ju s2
        exact stateLE_trans s s1 _ hth (stateLE_trans s1 s2 _ hgm
          (stateLE_trans s2 _ _ hvm (stateLE_succBump _)))

theorem foldl_mono (cfg : Config) (o : Oracle) (l : List Video) :
    ∀ s, stateLE s (l.foldl (processVideo cfg o) s) := by
  induction l with
  | nil => exact fun s => stateLE_refl s
  | cons u l ih =>
    intro s
    rw [List.foldl_cons]
    exact stateLE_trans s _ _ (processVideo_mono cfg o s u) (ih _)

/-! ## Artifact ids stay inside the live stems (runs from the empty store) -/

theorem tryJpeg_SubStems (videos : List Video) (o : Oracle) (id : String) (s : PipeState)
    (hid : id ∈ videos.map Video.stem) (hs : SubStems videos s) :
    SubStems videos (tryJpeg o id s).1 := by
  rw [tryJpeg]
  split_ifs
  · exact hs
  · refine ⟨?_, hs.2.1, hs.2.2⟩
    intro x hx
    simp only [addJpeg, bumpCodec] at hx
    rcases List.mem_cons.1 hx with rfl | hx2
    · exact hid
    · exact hs.1 x hx2
  · exact hs

theorem tryWebm_SubStems (videos : List Video) (o : Oracle) (id : String) (s : PipeState)
    (hid : id ∈ videos.map Video.stem) (hs : SubStems videos s) :
    SubStems videos (tryWebm o id s).1 := by
  rw [tryWebm]
  split_ifs
  · exact hs
  · refine ⟨hs.1, ?_, hs.2.2⟩
    intro x hx
    simp only [addWebm, bumpCodec] at hx
    rcases List.mem_cons.1 hx with rfl | hx2
    · exact hid
    · exact hs.2.1 x hx2
  · exact hs

theorem thumbsStage_SubStems (cfg : Config) (videos : List Video) (o : Oracle)
    (id : String) (s : PipeState) (hid : id ∈ videos.map Video.stem)
    (hs : SubStems videos s) : SubStems videos (thumbsStage cfg o id s).1 := by
  rw [thumbsStage]
  by_cases ht : cfg.generate_thumbs = true
  · rw [if_pos ht]
    have hj := tryJpeg_SubStems videos o id s hid hs
    rcases hje : tryJpeg o id s with ⟨s1, ju⟩
    rw [hje] at hj
    simp only [hje]
    rcases ju with _ | ju
    · exact hj
    · have hw := tryWebm_SubStems videos o id s1 hid hj
      rcases hwe : tryWebm o id s1 with ⟨s2, b⟩
      rw [hwe] at hw
      simp only [hwe]
      rcases b with _ | _ <;> exact hw
  · rw [if_neg ht]
    exact hs

theorem SubStems_of_store_eq (videos : List Video) (s t : PipeState)
    (h : t.store = s.store) (hs : SubStems videos s) : SubStems videos t := by
  unfold SubStems
  rw [h]
  exact hs

theorem appendEntry_store_artifacts (s : PipeState) (e : TagEntry) :
    (appendEntry s e).store.jpegs = s.store.jpegs ∧
    (appendEntry s e).store.webms = s.store.webms ∧
    (appendEntry s e).store.gifs = s.store.gifs := by
  simp [appendEntry]

theorem gifStage_SubStems (cfg : Config) (videos : List Video) (o : Oracle)
    (id : String) (s : PipeState) (hid : id ∈ videos.map Video.stem)
    (hs : SubStems videos s) : SubStems videos (gifStage cfg o id s).1 := by
  rw [gifStage]
  by_cases hcond : cfg.generate_gifs = true ∧ id ∉ s.store.gifs ∧
      gifTagGuard s.existing id = true
  · rw [if_pos hcond]
    by_cases hok : o.gifOk id = true
    · rw [if_pos hok]
      have hs2 : SubStems videos (addGif (bumpCodec s) id) := by
        refine ⟨hs.1, hs.2.1, ?_⟩
        intro x hx
        simp only [addGif, bumpCodec] at hx
        rcases List.mem_cons.1 hx with rfl | hx2
        · exact hid
        · exact hs.2.2 x hx2
      by_cases htag : cfg.generate_tags = true ∧ cfg.taggerLoaded = true
      · rw [if_pos htag]
        have hti := tag_image_state o cfg.num_tags id (addGif (bumpCodec s) id)
        have hs3 : SubStems videos (tag_image o cfg.num_tags id (addGif (bumpCodec s) id)).1 :=
          SubStems_of_store_eq videos _ _ hti.2.1 hs2
        by_cases hr : (tag_image o cfg.num_tags id (addGif (bumpCodec s) id)).2 = []
        · rw [if_pos hr]
          exact hs3
        · rw [if_neg hr]
          have ha := appendEntry_store_artifacts
            (tag_image o cfg.num_tags id (addGif (bumpCodec s) id)).1
            ⟨"gif_" ++ id, "gif", (tag_image o cfg.num_tags id (addGif (bumpCodec s) id)).2⟩
          exact ⟨by rw [ha.1]; exact hs3.1, by rw [ha.2.1]; exact hs3.2.1,
            by rw [ha.2.2]; exact hs3.2.2⟩
      · rw [if_neg htag]
        exact hs2
    · rw [if_neg hok]
      exact hs
  · rw [if_neg hcond]
    exact hs

theorem videoTagStage_store_artifacts (cfg : Config) (o : Oracle) (id ju : String)
    (s : PipeState) :
    (videoTagStage cfg o id ju s).store.jpegs = s.store.jpegs ∧
    (videoTagStage cfg o id ju s).store.webms = s.store.webms ∧
    (videoTagStage cfg o id ju s).store.gifs = s.store.gifs := by
  simp only [videoTagStage]
  split_ifs <;> simp [appendEntry, bumpClassifier]

theorem processVideo_SubStems (cfg : Config) (videos : List Video) (o : Oracle)
    (s : PipeState) (v : Video) (hv : v.stem ∈ videos.map Video.stem)
    (hs : SubStems videos s) : SubStems videos (processVideo cfg o s v) := by
  rw [processVideo]
  by_cases hd : get_video_duration o v.path < 5
  · rw [if_pos hd]
    exact hs
  · rw [if_neg hd]
    have hth := thumbsStage_SubStems cfg videos o v.stem s hv hs
    rcases hts : thumbsStage cfg o v.stem s with ⟨s1, ju⟩
    rw [hts] at hth
    simp only [hts]
    rcases ju with _ | ju
    · exact hth
    · have hgm := gifStage_SubStems cfg videos o v.stem s1 hv hth
      rcases hgs : gifStage cfg o v.stem s1 with ⟨s2, b⟩
      rw [hgs] at hgm
      simp only [hgs]
      rcases b with _ | _
      · exact hgm
      · rw [if_pos rfl]
        have hvs := videoTagStage_store_artifacts cfg o v.stem ju s2
        have hs3 : SubStems videos (videoTagStage cfg o v.stem ju s2) :=
          ⟨fun x hx => hgm.1 x (hvs.1 ▸ hx), fun x hx => hgm.2.1 x (hvs.2.1 ▸ hx),
            fun x hx => hgm.2.2 x (hvs.2.2 ▸ hx)⟩
        exact SubStems_of_store_eq videos _ _ rfl hs3

theorem foldl_SubStems (cfg : Config) (videos : List Video) (o : Oracle) (l : List Video)
    (hl : ∀ v ∈ l, v.stem ∈ videos.map Video.stem) :
    ∀ s, SubStems videos s → SubStems videos (l.foldl (processVideo cfg o) s) := by
  induction l with
  | nil => exact fun s hs => hs
  | cons u l ih =>
    intro s hs
    rw [List.foldl_cons]
    exact ih (fun v hv => hl v (List.mem_cons_of_mem u hv)) _
      (processVideo_SubStems cfg videos o s u (hl u (List.mem_cons_self u l)) hs)

/-! ## Progress of a successful run: every video ends up cached -/

theorem gifStrippedIds_mono (A B : List String) (h : ∀ x, x ∈ A → x ∈ B) (y : String)
    (hy : y ∈ gifStrippedIds A) : y ∈ gifStrippedIds B := by
  rw [gifStrippedIds, List.mem_map] at hy ⊢
  obtain ⟨g, hg, rfl⟩ := hy
  exact ⟨g, List.mem_filter.2 ⟨h g (List.mem_filter.1 hg).1, (List.mem_filter.1 hg).2⟩, rfl⟩

theorem gifTagGuard_eq_false_iff (ids : List String) (id : String) :
    gifTagGuard ids id = false ↔ id ∈ gifStrippedIds ids := by
  simp [gifTagGuard]

theorem CachedFor_mono (cfg : Config) (s t : PipeState) (v : Video)
    (hle : stateLE s t) (h : CachedFor cfg s.store s.existing v) :
    CachedFor cfg t.store t.existing v := by
  obtain ⟨h1, h2, h3⟩ := h
  refine ⟨?_, ?_, ?_⟩
  · intro ht
    exact ⟨hle.1 _ (h1 ht).1, hle.2.1 _ (h1 ht).2⟩
  · intro hg
    rcases h2 hg with hm | hm
    · exact Or.inl (hle.2.2.1 _ hm)
    · exact Or.inr (gifStrippedIds_mono _ _ hle.2.2.2.1 _ hm)
  · intro hta htg hth
    exact hle.2.2.2.1 _ (h3 hta htg hth)

theorem DoneVideo_mono (cfg : Config) (o : Oracle) (s t : PipeState) (v : Video)
    (hle : stateLE s t) (h : DoneVideo cfg o s v) : DoneVideo cfg o t v :=
  fun hdur => CachedFor_mono cfg s t v hle (h hdur)

theorem thumbUrl_ne_empty (id : String) : thumbUrl id ≠ "" := by
  intro h
  have hlen := congrArg String.length h
  have h1 : ("/thumbnails/preview/" : String).length = 20 := by decide
  have h2 : ("" : String).length = 0 := by decide
  rw [thumbUrl, String.length_append, String.length_append, h1, h2] at hlen
  omega

theorem tryJpeg_success (o : Oracle) (id : String) (s : PipeState)
    (hok : o.jpegOk id = true) :
    (tryJpeg o id s).2 = some (thumbUrl id) ∧ id ∈ (tryJpeg o id s).1.store.jpegs := by
  rw [tryJpeg]
  by_cases hm : id ∈ s.store.jpegs
  · rw [if_pos hm]
    exact ⟨rfl, hm⟩
  · rw [if_neg hm, if_pos hok]
    exact ⟨rfl, by simp [addJpeg, bumpCodec]⟩

theorem tryWebm_success (o : Oracle) (id : String) (s : PipeState)
    (hok : o.webmOk id = true) :
    (tryWebm o id s).2 = true ∧ id ∈ (tryWebm o id s).1.store.webms := by
  rw [tryWebm]
  by_cases hm : id ∈ s.store.webms
  · rw [if_pos hm]
    exact ⟨rfl, hm⟩
  · rw [if_neg hm, if_pos hok]
    exact ⟨rfl, by simp [addWebm, bumpCodec]⟩

theorem thumbsStage_success (cfg : Config) (o : Oracle) (id : String) (s : PipeState)
    (ht : cfg.generate_thumbs = true) (hj : o.jpegOk id = true) (hw : o.webmOk id = true) :
    (thumbsStage cfg o id s).2 = some (thumbUrl id) ∧
    id ∈ (thumbsStage cfg o id s).1.store.jpegs ∧
    id ∈ (thumbsStage cfg o id s).1.store.webms := by
  rw [thumbsStage, if_pos ht]
  have htj := tryJpeg_success o id s hj
  rcases hje : tryJpeg o id s with ⟨s1, ju⟩
  rw [hje] at htj
  simp only [hje]
  obtain ⟨hjeq, hjm⟩ := htj
  cases hjeq
  have htw := tryWebm_success o id s1 hw
  have hwmono := tryWebm_mono o id s1
  rcases hwe : tryWebm o id s1 with ⟨s2, b⟩
  rw [hwe] at htw hwmono
  simp only [hwe]
  obtain ⟨hbeq, hwm⟩ := htw
  cases hbeq
  rw [if_pos rfl]
  exact ⟨rfl, hwmono.1 _ hjm, hwm⟩

theorem thumbsStage_off (cfg : Config) (o : Oracle) (id : String) (s : PipeState)
    (ht : ¬ cfg.generate_thumbs = true) :
    thumbsStage cfg o id s = (s, some "") := by
  rw [thumbsStage, if_neg ht]

theorem gifStage_success (cfg : Config) (o : Oracle) (id : String) (s : PipeState)
    (hok : o.gifOk id = true) :
    (gifStage cfg o id s).2 = true ∧
    (cfg.generate_gifs = true →
      id ∈ (gifStage cfg o id s).1.store.gifs ∨
      id ∈ gifStrippedIds (gifStage cfg o id s).1.existing) := by
  rw [gifStage]
  by_cases hcond : cfg.generate_gifs = true ∧ id ∉ s.store.gifs ∧
      gifTagGuard s.existing id = true
  · rw [if_pos hcond, if_pos hok]
    have hgifmem : id ∈ (addGif (bumpCodec s) id).store.gifs := by
      simp [addGif, bumpCodec]
    by_cases htag : cfg.generate_tags = true ∧ cfg.taggerLoaded = true
    · rw [if_pos htag]
      have hti := tag_image_state o cfg.num_tags id (addGif (bumpCodec s) id)
      have hmem2 : id ∈ (tag_image o cfg.num_tags id (addGif (bumpCodec s) id)).1.store.gifs := by
        rw [hti.2.1]
        exact hgifmem
      by_cases hr : (tag_image o cfg.num_tags id (addGif (bumpCodec s) id)).2 = []
      · rw [if_pos hr]
        exact ⟨rfl, fun _ => Or.inl hmem2⟩
      · rw [if_neg hr]
        have ha := appendEntry_store_artifacts
          (tag_image o cfg.num_tags id (addGif (bumpCodec s) id)).1
          ⟨"gif_" ++ id, "gif", (tag_image o cfg.num_tags id (addGif (bumpCodec s) id)).2⟩
        exact ⟨rfl, fun _ => Or.inl (by rw [ha.2.2]; exact hmem2)⟩
    · rw [if_neg htag]
      exact ⟨rfl, fun _ => Or.inl hgifmem⟩
  · rw [if_neg hcond]
    refine ⟨rfl, fun hg => ?_⟩
    by_cases hin : id ∈ s.store.gifs
    · exact Or.inl hin
    · have hguard : ¬ gifTagGuard s.existing id = true := by
        intro hgu
        exact hcond ⟨hg, hin, hgu⟩
      exact Or.inr ((gifTagGuard_eq_false_iff s.existing id).1
        (Bool.eq_false_iff.2 hguard |>.symm ▸ rfl))

theorem videoTagStage_success (cfg : Config) (o : Oracle) (id : String) (s : PipeState)
    (hcls : o.classify id ≠ []) (hnum : 0 < cfg.num_tags)
    (hta : cfg.generate_tags = true) (htg : cfg.taggerLoaded = true) :
    id ∈ (videoTagStage cfg o id (thumbUrl id) s).existing := by
  by_cases hin : id ∈ s.existing
  · exact (videoTagStage_mono cfg o id (thumbUrl id) s).2.2.2.1 _ hin
  · rw [videoTagStage]
    have hcond : cfg.generate_tags = true ∧ id ∉ s.existing ∧ thumbUrl id ≠ "" :=
      ⟨hta, hin, thumbUrl_ne_empty id⟩
    rw [if_pos hcond, if_pos htg]
    have htake : (o.classify id).take cfg.num_tags ≠ [] := by
      rw [Ne, List.take_eq_nil_iff]
      push_neg
      exact ⟨by omega, hcls⟩
    rw [if_neg htake]
    exact List.mem_insert_self id _

/-- After the loop body has processed a video with an all-success oracle, the
video is done: its artifacts exist (or the gif branch is blocked by the id
set) and its tag entry is present. -/
theorem processVideo_done (cfg : Config) (o : Oracle) (s : PipeState) (v : Video)
    (hsucc : SuccessOracle o) (hnum : 0 < cfg.num_tags) :
    DoneVideo cfg o (processVideo cfg o s v) v := by
  intro hdur
  have hd : ¬ get_video_duration o v.path < 5 := not_lt.2 hdur
  rw [processVideo, if_neg hd]
  by_cases ht : cfg.generate_thumbs = true
  · have hth := thumbsStage_success cfg o v.stem s ht (hsucc.1 v.stem) (hsucc.2.1 v.stem)
    rcases hts : thumbsStage cfg o v.stem s with ⟨s1, ju⟩
    rw [hts] at hth
    obtain ⟨hjeq, hjm, hwm⟩ := hth
    simp only at hjeq
    simp only [hts]
    cases hjeq
    have hgp := gifStage_success cfg o v.stem s1 (hsucc.2.2.1 v.stem)
    have hgmono := gifStage_mono cfg o v.stem s1
    rcases hgs : gifStage cfg o v.stem s1 with ⟨s2, b⟩
    rw [hgs] at hgp hgmono
    obtain ⟨hbeq, hgfact⟩ := hgp
    simp only at hbeq
    simp only [hgs]
    cases hbeq
    rw [if_pos rfl]
    have hvmono := videoTagStage_mono cfg o v.stem (thumbUrl v.stem) s2
    have hvs := videoTagStage_store_artifacts cfg o v.stem (thumbUrl v.stem) s2
    refine ⟨?_, ?_, ?_⟩
    · intro _
      constructor
      · rw [hvs.1]
        exact hgmono.1 _ hjm
      · rw [hvs.2.1]
        exact hgmono.2.1 _ hwm
    · intro hg
      rcases hgfact hg with hm | hm
      · left
        rw [hvs.2.2]
        exact hm
      · right
        exact gifStrippedIds_mono _ _ hvmono.2.2.2.1 _ hm
    · intro hta htg _
      exact videoTagStage_success cfg o v.stem s2 (hsucc.2.2.2 v.stem) hnum hta htg
  · rw [thumbsStage_off cfg o v.stem s ht]
    simp only
    have hgp := gifStage_success cfg o v.stem s (hsucc.2.2.1 v.stem)
    have hgmono := gifStage_mono cfg o v.stem s
    rcases hgs : gifStage cfg o v.stem s with ⟨s2, b⟩
    rw [hgs] at hgp hgmono
    obtain ⟨hbeq, hgfact⟩ := hgp
    simp only at hbeq
    simp only [hgs]
    cases hbeq
    rw [if_pos rfl]
    have hvmono := videoTagStage_mono cfg o v.stem "" s2
    have hvs := videoTagStage_store_artifacts cfg o v.stem "" s2
    refine ⟨?_, ?_, ?_⟩
    · intro hthumbs
      exact absurd hthumbs ht
    · intro hg
      rcases hgfact hg with hm | hm
      · left
        rw [hvs.2.2]
        exact hm
      · right
        exact gifStrippedIds_mono _ _ hvmono.2.2.2.1 _ hm
    · intro _ _ hthumbs
      exact absurd hthumbs ht

theorem foldl_done (cfg : Config) (o : Oracle) (l : List Video)
    (hsucc : SuccessOracle o) (hnum : 0 < cfg.num_tags) :
    ∀ s, ∀ v ∈ l, DoneVideo cfg o (l.foldl (processVideo cfg o) s) v := by
  induction l with
  | nil => exact fun s v hv => absurd hv (List.not_mem_nil v)
  | cons u l ih =>
    intro s v hv
    rw [List.foldl_cons]
    rcases List.mem_cons.1 hv with rfl | hv2
    · exact DoneVideo_mono cfg o _ _ v (foldl_mono cfg o l _)
        (processVideo_done cfg o s v hsucc hnum)
    · exact ih _ v hv2

/-! ## The second run: every existence check short-circuits -/

theorem tryJpeg_mem (o : Oracle) (id : String) (s : PipeState)
    (h : id ∈ s.store.jpegs) : tryJpeg o id s = (s, some (thumbUrl id)) := by
  rw [tryJpeg, if_pos h]

theorem tryWebm_mem (o : Oracle) (id : String) (s : PipeState)
    (h : id ∈ s.store.webms) : tryWebm o id s = (s, true) := by
  rw [tryWebm, if_pos h]

theorem thumbsStage_cached (cfg : Config) (o : Oracle) (id : String) (s : PipeState)
    (h : cfg.generate_thumbs = true → id ∈ s.store.jpegs ∧ id ∈ s.store.webms) :
    thumbsStage cfg o id s =
      (s, some (if cfg.generate_thumbs then thumbUrl id else "")) := by
  by_cases ht : cfg.generate_thumbs = true
  · obtain ⟨h1, h2⟩ := h ht
    rw [thumbsStage, if_pos ht]
    simp only [tryJpeg_mem o id s h1]
    simp only [tryWebm_mem o id s h2]
    rw [if_pos trivial, if_pos ht]
  · rw [thumbsStage_off cfg o id s ht, if_neg ht]

theorem gifStage_cached (cfg : Config) (o : Oracle) (id : String) (s : PipeState)
    (h : cfg.generate_gifs = true → id ∈ s.store.gifs ∨ id ∈ gifStrippedIds s.existing) :
    gifStage cfg o id s = (s, true) := by
  rw [gifStage, if_neg ?_]
  rintro ⟨hg, hnm, hguard⟩
  rcases h hg with hm | hm
  · exact hnm hm
  · have hfalse : gifTagGuard s.existing id = false :=
      (gifTagGuard_eq_false_iff s.existing id).2 hm
    rw [hfalse] at hguard
    exact Bool.false_ne_true hguard

theorem videoTagStage_cached (cfg : Config) (o : Oracle) (id : String) (ju : String)
    (s : PipeState)
    (h : cfg.generate_tags = true → cfg.taggerLoaded = true → ju ≠ "" → id ∈ s.existing) :
    videoTagStage cfg o id ju s = s := by
  rw [videoTagStage]
  by_cases hcond : cfg.generate_tags = true ∧ id ∉ s.existing ∧ ju ≠ ""
  · rw [if_pos hcond]
    by_cases htg : cfg.taggerLoaded = true
    · exact absurd (h hcond.1 htg hcond.2.2) hcond.2.1
    · rw [if_neg htg]
  · rw [if_neg hcond]

theorem processVideo_cached (cfg : Config) (o : Oracle) (t : PipeState) (v : Video)
    (h : 5 ≤ get_video_duration o v.path → CachedFor cfg t.store t.existing v) :
    processVideo cfg o t v = t ∨
    processVideo cfg o t v = { t with successCount := t.successCount + 1 } := by
  rw [processVideo]
  by_cases hd : get_video_duration o v.path < 5
  · rw [if_pos hd]
    exact Or.inl rfl
  · rw [if_neg hd]
    obtain ⟨h1, h2, h3⟩ := h (not_lt.1 hd)
    simp only [thumbsStage_cached cfg o v.stem t h1]
    simp only [gifStage_cached cfg o v.stem t h2]
    rw [if_pos trivial]
    rw [videoTagStage_cached cfg o v.stem _ t ?_]
    · exact Or.inr rfl
    · intro hta htg hju
      by_cases ht : cfg.generate_thumbs = true
      · exact h3 hta htg ht
      · rw [if_neg ht] at hju
        exact absurd rfl hju

theorem foldl_cached (cfg : Config) (o : Oracle) (l : List Video) :
    ∀ t, (∀ v ∈ l, 5 ≤ get_video_duration o v.path →
        CachedFor cfg t.store t.existing v) →
      (l.foldl (processVideo cfg o) t).store = t.store ∧
      (l.foldl (processVideo cfg o) t).existing = t.existing ∧
      (l.foldl (processVideo cfg o) t).tagsData = t.tagsData ∧
      (l.foldl (processVideo cfg o) t).codecCalls = t.codecCalls ∧
      (l.foldl (processVideo cfg o) t).classifierCalls = t.classifierCalls := by
  induction l with
  | nil => exact fun t _ => ⟨rfl, rfl, rfl, rfl, rfl⟩
  | cons u l ih =>
    intro t H
    rw [List.foldl_cons]
    rcases processVideo_cached cfg o t u (H u (List.mem_cons_self u l)) with h | h
    · rw [h]
      exact ih t (fun v hv => H v (List.mem_cons_of_mem u hv))
    · rw [h]
      exact ih { t with successCount := t.successCount + 1 }
        (fun v hv => H v (List.mem_cons_of_mem u hv))

/-- When every stem survives suffix-stripping and every stored artifact id is a
live stem, the orphan cleanup deletes nothing. -/
theorem clean_identity (video_files : List Video) (st : Store)
    (hmk : ∀ v ∈ video_files, stripSuffixMarkers (v.stem ++ "_thumb") = v.stem ∧
      stripSuffixMarkers v.stem = v.stem)
    (hj : ∀ x ∈ st.jpegs, x ∈ video_files.map Video.stem)
    (hw : ∀ x ∈ st.webms, x ∈ video_files.map Video.stem)
    (hg : ∀ x ∈ st.gifs, x ∈ video_files.map Video.stem) :
    clean_thumbnails_and_gifs video_files st = st := by
  have hstem : ∀ id ∈ video_files.map Video.stem,
      stripSuffixMarkers (id ++ "_thumb") = id ∧ stripSuffixMarkers id = id := by
    intro id hid
    rw [List.mem_map] at hid
    obtain ⟨v, hv, rfl⟩ := hid
    exact hmk v hv
  simp only [clean_thumbnails_and_gifs]
  rcases st with ⟨js, ws, gs, rows⟩
  simp only [Store.mk.injEq]
  refine ⟨?_, ?_, ?_, trivial⟩
  · rw [List.filter_eq_self]
    intro a ha
    have hin := hj a ha
    exact decide_eq_true (by rw [(hstem a hin).1]; exact hin)
  · rw [List.filter_eq_self]
    intro a ha
    have hin := hw a ha
    exact decide_eq_true (by rw [(hstem a hin).2]; exact hin)
  · rw [List.filter_eq_self]
    intro a ha
    exact decide_eq_true (hg a ha)

theorem runPipeline_proj (cfg : Config) (o : Oracle) (video_files : List Video)
    (st : Store) :
    (runPipeline cfg o video_files st).store = (runLoop cfg o video_files st).store ∧
    (runPipeline cfg o video_files st).codecCalls =
      (runLoop cfg o video_files st).codecCalls ∧
    (runPipeline cfg o video_files st).classifierCalls =
      (runLoop cfg o video_files st).classifierCalls := by
  simp only [runPipeline, runLoop, runInit]
  split_ifs <;> exact ⟨rfl, rfl, rfl⟩

theorem runInit_empty (cfg : Config) (video_files : List Video) :
    runInit cfg video_files emptyStore = ⟨emptyStore, [], [], 0, 0, 0⟩ := by
  simp only [runInit]
  split_ifs <;> rfl

/-! ## Claim C1 -/

/-- Claim C1 fails as stated: for the video `a_start.mp4` (duration 30s, all
generations succeeding), the first run from an empty store completes with two
codec invocations and leaves both artifacts; but the second run also makes two
codec invocations, because the orphan cleanup strips the `_start` marker from
the stored file stems (`a_start_thumb` → `a`, `a_start` → `a`), decides the
artifacts are orphans of the non-existent video `a`, deletes them, and the
loop regenerates them — the existence checks do not short-circuit. -/
theorem C1_counterexample :
    (runPipeline cfgMarks demoOracle vidsMarks emptyStore).codecCalls = 2 ∧
    (runPipeline cfgMarks demoOracle vidsMarks emptyStore).store.jpegs = ["a_start"] ∧
    (runPipeline cfgMarks demoOracle vidsMarks emptyStore).store.webms = ["a_start"] ∧
    (runPipeline cfgMarks demoOracle vidsMarks
      (runPipeline cfgMarks demoOracle vidsMarks emptyStore).store).codecCalls = 2 := by
  refine ⟨?_, ?_, ?_, ?_⟩ <;> decide

/-- Claim C1 (amended): provided no video stem is altered by the cleanup's
suffix-marker stripping (no stem contains `_thumb`, `_start`, `_middle` or
`_end`), a second run over the store left by a completed first run (all codec
calls succeeding, the classifier returning at least one label, at least one
tag requested) performs zero codec and zero classifier invocations — every
existence check on the still-frame, merged-clip, GIF and tag-id paths
short-circuits — and leaves the persisted tag table identical. -/
theorem C1_idempotence_amended (cfg : Config) (o : Oracle) (video_files : List Video)
    (hmk : ∀ v ∈ video_files, stripSuffixMarkers (v.stem ++ "_thumb") = v.stem ∧
      stripSuffixMarkers v.stem = v.stem)
    (hsucc : SuccessOracle o) (hnum : 0 < cfg.num_tags) :
    (runPipeline cfg o video_files
      (runPipeline cfg o video_files emptyStore).store).codecCalls = 0 ∧
    (runPipeline cfg o video_files
      (runPipeline cfg o video_files emptyStore).store).classifierCalls = 0 ∧
    (runPipeline cfg o video_files
      (runPipeline cfg o video_files emptyStore).store).store.csvRows =
      (runPipeline cfg o video_files emptyStore).store.csvRows := by
  obtain ⟨hp1store, hp1codec, hp1cls⟩ := runPipeline_proj cfg o video_files emptyStore
  obtain ⟨hp2store, hp2codec, hp2cls⟩ := runPipeline_proj cfg o video_files
    (runPipeline cfg o video_files emptyStore).store
  -- run 1: the loop state and the facts it establishes
  have hinit1 : runInit cfg video_files emptyStore = ⟨emptyStore, [], [], 0, 0, 0⟩ :=
    runInit_empty cfg video_files
  have hsync : TagSync (runLoop cfg o video_files emptyStore) := by
    rw [runLoop, hinit1]
    exact foldl_TagSync cfg o video_files _ ⟨fun x => Iff.rfl, rfl⟩
  have hsub : SubStems video_files (runLoop cfg o video_files emptyStore) := by
    rw [runLoop, hinit1]
    exact foldl_SubStems cfg video_files o video_files
      (fun v hv => List.mem_map_of_mem Video.stem hv) _
      ⟨fun x hx => absurd hx (List.not_mem_nil x),
        fun x hx => absurd hx (List.not_mem_nil x),
        fun x hx => absurd hx (List.not_mem_nil x)⟩
  have hdone : ∀ v ∈ video_files,
      DoneVideo cfg o (runLoop cfg o video_files emptyStore) v := by
    rw [runLoop, hinit1]
    exact fun v hv => foldl_done cfg o video_files hsucc hnum _ v hv
  -- the store the second run starts from
  have hS1 : (runPipeline cfg o video_files emptyStore).store =
      (runLoop cfg o video_files emptyStore).store := hp1store
  -- the second run's cleanup is the identity
  have hinit2store : (runInit cfg video_files
      (runPipeline cfg o video_files emptyStore).store).store =
      (runPipeline cfg o video_files emptyStore).store := by
    simp only [runInit]
    split_ifs with h
    · rw [hS1]
      exact clean_identity video_files _ hmk hsub.1 hsub.2.1 hsub.2.2
    · rfl
  -- facts for the second run's loop
  have hfacts : ∀ v ∈ video_files, 5 ≤ get_video_duration o v.path →
      CachedFor cfg
        (runInit cfg video_files (runPipeline cfg o video_files emptyStore).store).store
        (runInit cfg video_files (runPipeline cfg o video_files emptyStore).store).existing
        v := by
    intro v hv hdur
    obtain ⟨h1, h2, h3⟩ := hdone v hv hdur
    have hexist2 : (runInit cfg video_files
        (runPipeline cfg o video_files emptyStore).store).existing =
        ((runPipeline cfg o video_files emptyStore).store.csvRows).map TagEntry.media_id :=
      rfl
    have hids : ∀ x, x ∈ (runLoop cfg o video_files emptyStore).existing →
        x ∈ (runInit cfg video_files
          (runPipeline cfg o video_files emptyStore).store).existing := by
      intro x hx
      rw [hexist2, hS1]
      exact (hsync.1 x).1 hx
    refine ⟨?_, ?_, ?_⟩
    · intro ht
      rw [hinit2store, hS1]
      exact h1 ht
    · intro hg
      rcases h2 hg with hm | hm
      · rw [hinit2store, hS1]
        exact Or.inl hm
      · exact Or.inr (gifStrippedIds_mono _ _ hids _ hm)
    · intro hta htg hth
      exact hids _ (h3 hta htg hth)
  have hc := foldl_cached cfg o video_files
    (runInit cfg video_files (runPipeline cfg o video_files emptyStore).store) hfacts
  rw [hp2codec, hp2cls, hp2store]
  rw [runLoop]
  refine ⟨hc.2.2.2.1, hc.2.2.2.2, ?_⟩
  have hstore2 := hc.1
  rw [hstore2, hinit2store]

theorem C1_witness :
    0 < cfgFull.num_tags ∧
    (runPipeline cfgFull demoOracle vidsPlain
      (runPipeline cfgFull demoOracle vidsPlain emptyStore).store).codecCalls = 0 ∧
    (runPipeline cfgFull demoOracle vidsPlain
      (runPipeline cfgFull demoOracle vidsPlain emptyStore).store).classifierCalls = 0 ∧
    (runPipeline cfgFull demoOracle vidsPlain
      (runPipeline cfgFull demoOracle vidsPlain emptyStore).store).store.csvRows =
      (runPipeline cfgFull demoOracle vidsPlain emptyStore).store.csvRows := by
  have hsucc : SuccessOracle demoOracle :=
    ⟨fun _ => rfl, fun _ => rfl, fun _ => rfl, fun _ h => List.noConfusion h⟩
  have h := C1_idempotence_amended cfgFull demoOracle vidsPlain (by decide) hsucc
    (by decide)
  exact ⟨by decide, h.1, h.2.1, h.2.2⟩

end Portfolio
